import Mathlib

/-!
Verification development for the Revenium Google middleware
(`revenium_middleware_google`): a shallow embedding in Lean 4 of the
usage-extraction, stream-interception, reporting and URL-normalization
logic of the repository, together with theorems settling the spec claims.

Python values that flow through the middleware's duck-typed attribute
probing are modelled by the inductive type `PyVal` (`None`, `int`, `str`,
attribute objects, lists).  Fallible Python code is modelled in
`Except PyErr`.  Python `bool`/`float` values are outside the modelled
universe; attribute maps have distinct keys, mirroring Python objects.
-/

namespace Revenium

/-- Exceptions of the middleware, mirroring `common/exceptions.py` plus the
built-in Python exceptions the embedded code can raise. -/
inductive PyErr where
  | typeError
  | indexError
  | apiResponseError (msg : String)
  | tokenExtractionError (msg : String)
  | meteringError
  | streamingError
deriving Repr, DecidableEq

/-- Python values as observed by the middleware: `None`, integers, strings,
attribute objects (also modelling dicts) and lists. -/
inductive PyVal where
  | none
  | int (n : Int)
  | str (s : String)
  | obj (attrs : List (String × PyVal))
  | list (xs : List PyVal)
deriving Repr

/-- Attribute lookup: `getattr(o, name)` succeeding iff the attribute exists.
Only `obj` values expose the probed attributes. -/
def PyVal.getattr? : PyVal → String → Option PyVal
  | .obj attrs, name => attrs.lookup name
  | _, _ => Option.none

/-- Does the value model Python `None`? -/
def PyVal.isNone : PyVal → Bool
  | .none => true
  | _ => false

/-- Is the value a Python `int`? (models `isinstance(v, int)`). -/
def PyVal.isInt : PyVal → Bool
  | .int _ => true
  | _ => false

/-- Python truthiness: `None`, `0`, `""`, `[]` and `{}` are falsy; plain
attribute objects are truthy. -/
def PyVal.truthy : PyVal → Bool
  | .none => false
  | .int n => n ≠ 0
  | .str s => s ≠ ""
  | .obj _ => true
  | .list xs => ¬ xs.isEmpty

/-- Model of `protocols.safe_getattr(obj, attr, default)`: attribute access
with a fallback default (the wrapped `getattr` never raises here). -/
def safe_getattr (o : PyVal) (attr : String) (default : PyVal) : PyVal :=
  (o.getattr? attr).getD default

/-- Python `a or b`: the first operand if truthy, otherwise the second. -/
def pyOr (a b : PyVal) : PyVal :=
  if a.truthy then a else b

/-- Python `v > 0`: defined for ints, a `TypeError` for every other modelled
value (as for `None > 0`, `"x" > 0`, `[] > 0` or `object() > 0`). -/
def pyGtZero : PyVal → Except PyErr Bool
  | .int n => .ok (decide (0 < n))
  | _ => .error .typeError

/-- Python `str(v)` for the modelled values; objects and lists render
opaquely (their exact `repr` is irrelevant to the claims). -/
def pyStr : PyVal → String
  | .str s => s
  | .int n => toString n
  | .none => "None"
  | .obj _ => "<object>"
  | .list _ => "<list>"

/-- Model of the `common.exceptions.safe_extract` decorator:
`TokenExtractionError` and `APIResponseError` are re-raised as-is, any
other exception is converted into a `TokenExtractionError` naming the
decorated function. -/
def safe_extract (fname : String) (r : Except PyErr α) : Except PyErr α :=
  match r with
  | .ok a => .ok a
  | .error (.tokenExtractionError m) => .error (.tokenExtractionError m)
  | .error (.apiResponseError m) => .error (.apiResponseError m)
  | .error _ => .error (.tokenExtractionError ("Unexpected error in " ++ fname))

/-- Operation types (`common/types.py`, `OperationType`). -/
inductive OperationType where
  | CHAT
  | EMBED
deriving Repr, DecidableEq

/-- SDK variants (`common/types.py`, `Provider`). -/
inductive Provider where
  | GOOGLE_AI_SDK
  | VERTEX_AI_SDK
deriving Repr, DecidableEq

/-- Token counts extracted from API responses (`common/types.py`,
`TokenCounts`).  Fields are `PyVal` because the Python dataclass is
untyped at runtime and some extraction paths store raw attribute values. -/
structure TokenCounts where
  input_tokens : PyVal
  output_tokens : PyVal
  total_tokens : PyVal
  cached_tokens : PyVal
deriving Repr

/-- Attribute names probed by `protocols.has_token_counts`. -/
def token_attrs : List String :=
  ["total_token_count", "total_tokens", "prompt_token_count", "prompt_tokens",
   "input_tokens", "candidates_token_count", "completion_tokens", "output_tokens"]

/-- Loop of `has_token_counts`: `any(hasattr(usage, a) and getattr(usage, a, 0) > 0)`
with Python short-circuiting; the comparison raises `TypeError` on non-int
attribute values. -/
def hasTokenCountsGo (usage : PyVal) : List String → Except PyErr Bool
  | [] => .ok false
  | a :: rest =>
    match usage.getattr? a with
    | Option.none => hasTokenCountsGo usage rest
    | some v =>
      match pyGtZero v with
      | .error e => .error e
      | .ok true => .ok true
      | .ok false => hasTokenCountsGo usage rest

/-- Model of `protocols.has_token_counts`. -/
def has_token_counts (usage : PyVal) : Except PyErr Bool :=
  if usage.truthy then hasTokenCountsGo usage token_attrs else .ok false

/-- Loop of `protocols.get_token_count`: first attribute whose value is a
positive `int` wins; absent, non-int, zero or negative candidates are
skipped. -/
def getTokenCountGo (usage : PyVal) : List String → Int
  | [] => 0
  | a :: rest =>
    match safe_getattr usage a (.int 0) with
    | .int v => if 0 < v then v else getTokenCountGo usage rest
    | _ => getTokenCountGo usage rest

/-- Model of `protocols.get_token_count`. -/
def get_token_count (usage : PyVal) (attr_names : List String) : Int :=
  if usage.truthy then getTokenCountGo usage attr_names else 0

/-- Usage sub-object selected by `extract_token_counts`
(`safe_getattr(response, "usage_metadata") or safe_getattr(response, "usage")`). -/
def usageOf (response : PyVal) : PyVal :=
  pyOr (safe_getattr response "usage_metadata" .none) (safe_getattr response "usage" .none)

/-- The token assembly of `extract_token_counts` once
`usage and has_token_counts(usage)` has evaluated to `found` without
raising: the four `get_token_count` chains when found (zeros otherwise),
then output tokens zeroed for EMBED operations, then the total computed as
`input + output` when no (positive) total was extracted but input or
output tokens were. -/
def assembleCounts (usage : PyVal) (found : Bool) (operation_type : OperationType) :
    TokenCounts :=
  let input_tokens :=
    if found then get_token_count usage ["prompt_token_count", "prompt_tokens", "input_tokens"]
    else 0
  let output_tokens0 :=
    if found then
      get_token_count usage ["candidates_token_count", "completion_tokens", "output_tokens"]
    else 0
  let total_tokens0 :=
    if found then get_token_count usage ["total_token_count", "total_tokens"] else 0
  let cached_tokens :=
    if found then get_token_count usage ["cached_content_token_count", "cached_tokens"] else 0
  let output_tokens := if operation_type = .EMBED then 0 else output_tokens0
  let total_tokens :=
    if total_tokens0 = 0 ∧ (0 < input_tokens ∨ 0 < output_tokens) then
      input_tokens + output_tokens
    else total_tokens0
  ⟨.int input_tokens, .int output_tokens, .int total_tokens, .int cached_tokens⟩

/-- Body of `utils.extract_token_counts` (before the `safe_extract`
decorator is applied). -/
def extractTokenCountsBody (response : PyVal) (operation_type : OperationType) :
    Except PyErr TokenCounts :=
  if response.isNone then
    .ok ⟨.int 0, .int 0, .int 0, .int 0⟩
  else
    match (if (usageOf response).truthy then has_token_counts (usageOf response)
           else .ok false) with
    | .error e => .error e
    | .ok b => .ok (assembleCounts (usageOf response) b operation_type)

/-- Model of `utils.extract_token_counts` (with its `safe_extract`
decorator). -/
def extract_token_counts (response : PyVal) (operation_type : OperationType) :
    Except PyErr TokenCounts :=
  safe_extract "extract_token_counts" (extractTokenCountsBody response operation_type)

/-- Attribute names probed by `utils.extract_model_name`. -/
def model_attrs : List String := ["model", "model_name", "_model_name", "model_version"]

/-- Truthiness of the optional `fallback` argument of `extract_model_name`
(`if fallback:` — `None` and the empty string are falsy). -/
def fallbackTruthy : Option String → Bool
  | Option.none => false
  | some s => s ≠ ""

/-- Attribute loop of `extract_model_name`: the first truthy candidate is
returned as `str(value)`. -/
def extractModelNameGo (response : PyVal) : List String → Option String
  | [] => Option.none
  | a :: rest =>
    let m := safe_getattr response a .none
    if m.truthy then some (pyStr m) else extractModelNameGo response rest

/-- Final fallback section of `extract_model_name`: the provided fallback if
truthy, else the literal `"unknown-model"`. -/
def modelNameFallback (fallback : Option String) : Except PyErr String :=
  if fallbackTruthy fallback then .ok (fallback.getD "") else .ok "unknown-model"

/-- Body of `utils.extract_model_name` (before the `safe_extract`
decorator): a `None` response without a truthy fallback raises
`APIResponseError`; otherwise direct attributes, then the nested
`usage.model` attribute, then the fallback chain are tried. -/
def extractModelNameBody (response : PyVal) (fallback : Option String) :
    Except PyErr String :=
  if response.isNone then
    if fallbackTruthy fallback then .ok (fallback.getD "")
    else .error (.apiResponseError "Response is None and no fallback model name provided")
  else
    match extractModelNameGo response model_attrs with
    | some m => .ok m
    | Option.none =>
      let usage := safe_getattr response "usage" .none
      if usage.truthy then
        let m := safe_getattr usage "model" .none
        if m.truthy then .ok (pyStr m) else modelNameFallback fallback
      else modelNameFallback fallback

/-- Model of `utils.extract_model_name` (with its `safe_extract`
decorator). -/
def extract_model_name (response : PyVal) (fallback : Option String) :
    Except PyErr String :=
  safe_extract "extract_model_name" (extractModelNameBody response fallback)

/-- Lookup table `GOOGLE_AI_STOP_REASONS` of `common/types.py`, modelled as
a function from the (optional string) key to the stored value; `Option.none`
on the right means the key is absent from the dict. -/
def GOOGLE_AI_STOP_REASONS (k : Option String) : Option String :=
  if k = some "STOP" then some "END"
  else if k = some "MAX_TOKENS" then some "TOKEN_LIMIT"
  else if k = some "SAFETY" then some "ERROR"
  else if k = some "RECITATION" then some "ERROR"
  else if k = some "OTHER" then some "END"
  else if k = Option.none then some "END"
  else Option.none

/-- Lookup table `VERTEX_AI_STOP_REASONS` of `common/types.py`. -/
def VERTEX_AI_STOP_REASONS (k : Option String) : Option String :=
  if k = some "STOP" then some "END"
  else if k = some "MAX_TOKENS" then some "TOKEN_LIMIT"
  else if k = some "SAFETY" then some "ERROR"
  else if k = some "RECITATION" then some "ERROR"
  else if k = some "FINISH_REASON_UNSPECIFIED" then some "END"
  else if k = Option.none then some "END"
  else Option.none

/-- Model of `types.normalize_stop_reason`: per-SDK table lookup with
default `"END"` (the `.get(finish_reason, "END")` call).  The Python
function's final `else: return "END"` branch is unreachable with the
two-variant `Provider` enum. -/
def normalize_stop_reason (finish_reason : Option String) (sdk_type : Provider) : String :=
  match sdk_type with
  | .GOOGLE_AI_SDK => (GOOGLE_AI_STOP_REASONS finish_reason).getD "END"
  | .VERTEX_AI_SDK => (VERTEX_AI_STOP_REASONS finish_reason).getD "END"

/-- Recognized keys of the per-SDK stop-reason tables (the dict keys other
than `None`). -/
def stopReasonKeys : Provider → List String
  | .GOOGLE_AI_SDK => ["STOP", "MAX_TOKENS", "SAFETY", "RECITATION", "OTHER"]
  | .VERTEX_AI_SDK => ["STOP", "MAX_TOKENS", "SAFETY", "RECITATION", "FINISH_REASON_UNSPECIFIED"]

/-- The closed stop-reason enumeration of the spec. -/
def validStopReasons : List String := ["END", "END_SEQUENCE", "TIMEOUT", "TOKEN_LIMIT", "ERROR"]

/-- Python `int(v)` conversion guarded by `hasattr(v, "__int__")` as in
`extract_vertex_ai_embedding_tokens`: modelled ints convert to themselves,
all other modelled values lack `__int__` and are kept unchanged. -/
def pyIntOf (v : PyVal) : PyVal :=
  match v with
  | .int n => .int n
  | v => v

/-- Python `int(v / 4)` as in the billable-character branch of
`extract_vertex_ai_embedding_tokens`: true division then truncation toward
zero for ints, `TypeError` for the other modelled values. -/
def pyDiv4 : PyVal → Except PyErr Int
  | .int n => .ok (Int.tdiv n 4)
  | _ => .error .typeError

/-- The `isinstance(response, list) and len(response) > 0` branch of
`vertex_ai.middleware.extract_vertex_ai_embedding_tokens`, applied to the
first embedding object. -/
def vertexEmbListCase (first : PyVal) : Except PyErr TokenCounts :=
  if (first.getattr? "statistics").isSome ∧ (safe_getattr first "statistics" .none).truthy
      ∧ ((safe_getattr first "statistics" .none).getattr? "token_count").isSome then
    .ok ⟨pyIntOf (safe_getattr (safe_getattr first "statistics" .none) "token_count" .none),
         .int 0,
         pyIntOf (safe_getattr (safe_getattr first "statistics" .none) "token_count" .none),
         .int 0⟩
  else if (first.getattr? "_prediction_response").isSome
      ∧ (safe_getattr first "_prediction_response" .none).truthy then
    if ((safe_getattr first "_prediction_response" .none).getattr? "metadata").isSome
        ∧ (safe_getattr (safe_getattr first "_prediction_response" .none) "metadata" .none).truthy
      then
      if ((safe_getattr (safe_getattr first "_prediction_response" .none) "metadata"
            .none).getattr? "billableCharacterCount").isSome then
        match pyDiv4 (safe_getattr (safe_getattr (safe_getattr first "_prediction_response" .none)
            "metadata" .none) "billableCharacterCount" .none) with
        | .error e => .error e
        | .ok q => .ok ⟨.int (max 1 q), .int 0, .int (max 1 q), .int 0⟩
      else .ok ⟨.int 0, .int 0, .int 0, .int 0⟩
    else .ok ⟨.int 0, .int 0, .int 0, .int 0⟩
  else .ok ⟨.int 0, .int 0, .int 0, .int 0⟩

/-- Model of `vertex_ai.middleware.extract_vertex_ai_embedding_tokens`. -/
def extract_vertex_ai_embedding_tokens (response : PyVal) : Except PyErr TokenCounts :=
  match response with
  | .list (first :: _) => vertexEmbListCase first
  | resp =>
    if (resp.getattr? "statistics").isSome ∧ (safe_getattr resp "statistics" .none).truthy then
      if ((safe_getattr resp "statistics" .none).getattr? "token_count").isSome then
        .ok ⟨safe_getattr (safe_getattr resp "statistics" .none) "token_count" .none,
             .int 0,
             safe_getattr (safe_getattr resp "statistics" .none) "token_count" .none,
             .int 0⟩
      else .ok ⟨.int 0, .int 0, .int 0, .int 0⟩
    else if (resp.getattr? "usage_metadata").isSome
        ∧ (safe_getattr resp "usage_metadata" .none).truthy then
      .ok ⟨safe_getattr (safe_getattr resp "usage_metadata" .none) "prompt_token_count" (.int 0),
           .int 0,
           safe_getattr (safe_getattr resp "usage_metadata" .none) "total_token_count"
             (safe_getattr (safe_getattr resp "usage_metadata" .none) "prompt_token_count"
               (.int 0)),
           .int 0⟩
    else .ok ⟨.int 0, .int 0, .int 0, .int 0⟩

/-!
Usage-data synthesis and the intercepting wrappers of
`google_ai/middleware.py`.  Timing fields (`request_time`,
`response_time`, durations) and provider metadata are constants from the
point of view of the claims and are elided from `UsageData`.
-/

/-- Usage data assembled by the middleware (`common/types.py`,
`UsageData`), restricted to the fields the claims are about.  Token fields
are `PyVal` because the Google-AI chat path stores raw `getattr` results. -/
structure UsageData where
  input_token_count : PyVal
  output_token_count : PyVal
  total_token_count : PyVal
  cache_creation_token_count : PyVal
  model : String
  stop_reason : String
  operation_type : OperationType
deriving Repr

/-- Python `a + b` inside the chat branch of `extract_google_ai_usage_data`
(the eagerly evaluated default of the `total_token_count` lookup):
int addition, string concatenation, `TypeError` otherwise. -/
def pyAdd : PyVal → PyVal → Except PyErr PyVal
  | .int a, .int b => .ok (.int (a + b))
  | .str a, .str b => .ok (.str (a ++ b))
  | _, _ => .error .typeError

/-- Python `x[0]` for the `response.candidates[0]` access: head of a
non-empty list or string, `IndexError` when empty, `TypeError` otherwise. -/
def pyIndex0 : PyVal → Except PyErr PyVal
  | .list (x :: _) => .ok x
  | .list [] => .error .indexError
  | .str s =>
    match s.data with
    | c :: _ => .ok (.str (String.mk [c]))
    | [] => .error .indexError
  | _ => .error .typeError

/-- Finish-reason value of `candidates[0]` as read by
`extract_google_ai_usage_data`; the table lookup treats every non-string
value like a missing key (both normalize to `"END"`). -/
def pyValToReasonKey : PyVal → Option String
  | .str s => some s
  | _ => Option.none

/-- The `hasattr(response, "candidates") and response.candidates` chain of
`extract_google_ai_usage_data`: the raw finish reason of the first
candidate, or `None` when unavailable. -/
def googleFinishReason (response : PyVal) : Except PyErr PyVal :=
  match response.getattr? "candidates" with
  | Option.none => .ok .none
  | some cands =>
    if cands.truthy then
      match pyIndex0 cands with
      | .error e => .error e
      | .ok candidate =>
        match candidate.getattr? "finish_reason" with
        | some fr => .ok fr
        | Option.none => .ok .none
    else .ok .none

/-- Model of `google_ai.middleware.extract_google_ai_usage_data`. -/
def extract_google_ai_usage_data (response : PyVal) (operation_type : OperationType)
    (model_name_fallback : Option String) : Except PyErr UsageData :=
  match extract_model_name response model_name_fallback with
  | .error e => .error e
  | .ok model_name =>
    match operation_type with
    | .EMBED =>
      .ok ⟨.int 0, .int 0, .int 0, .int 0, model_name, "END", .EMBED⟩
    | .CHAT =>
      let um := safe_getattr response "usage_metadata" .none
      let counts : Except PyErr (PyVal × PyVal × PyVal × PyVal) :=
        if (response.getattr? "usage_metadata").isSome ∧ um.truthy then
          let inp := safe_getattr um "prompt_token_count" (.int 0)
          let out := safe_getattr um "candidates_token_count" (.int 0)
          match pyAdd inp out with
          | .error e => .error e
          | .ok sum =>
            let tot := safe_getattr um "total_token_count" sum
            let cached := safe_getattr um "cached_content_token_count" (.int 0)
            .ok (inp, out, tot, cached)
        else .ok (.int 0, .int 0, .int 0, .int 0)
      match counts with
      | .error e => .error e
      | .ok (inp, out, tot, cached) =>
        match googleFinishReason response with
        | .error e => .error e
        | .ok fr =>
          let stop_reason := normalize_stop_reason (pyValToReasonKey fr) .GOOGLE_AI_SDK
          .ok ⟨inp, out, tot, cached, model_name, stop_reason, .CHAT⟩

/-- Model of `utils.create_metering_call`: dispatches the metering call
onto a background thread; the dispatch itself returns normally, and
backend failures happen off the caller's thread. -/
def create_metering_call (_usage_data : UsageData) : Except PyErr Unit := .ok ()

/-- Python `try: _ = r; except Exception: log` — the result of `r` is
observed and any exception is swallowed. -/
def tryExceptLog (_r : Except PyErr α) : Except PyErr Unit := .ok ()

/-- Model of `google_ai.middleware.create_google_ai_metering_call`: usage
extraction runs unprotected, then `create_metering_call` runs inside a
`try/except` that only logs. -/
def create_google_ai_metering_call (response : PyVal) (operation_type : OperationType)
    (model_name_fallback : Option String) : Except PyErr Unit :=
  match extract_google_ai_usage_data response operation_type model_name_fallback with
  | .error e => .error e
  | .ok usage_data => tryExceptLog (create_metering_call usage_data)

/-- Model of the `exceptions.handle_metering_error` decorator:
`MeteringError` is re-raised as-is and every other exception is re-raised
wrapped as a `MeteringError` — nothing is swallowed. -/
def handle_metering_error (r : Except PyErr α) : Except PyErr α :=
  match r with
  | .ok a => .ok a
  | .error .meteringError => .error .meteringError
  | .error _ => .error .meteringError

/-- Model of `google_ai.middleware.generate_content_wrapper`: the wrapped
SDK call runs, then the metering call is attempted inside a `try/except`
that only logs, and the original response is returned; the whole body is
decorated with `handle_metering_error`.  The argument is the outcome of
the wrapped SDK call. -/
def generate_content_wrapper (sdk : Except PyErr PyVal) : Except PyErr PyVal :=
  handle_metering_error
    (match sdk with
     | .error e => .error e
     | .ok response =>
       match tryExceptLog (create_google_ai_metering_call response .CHAT Option.none) with
       | .error e => .error e
       | .ok _ => .ok response)

/-- Model of `google_ai.middleware.embed_content_wrapper`: unlike the chat
wrapper, the metering call runs with no inner `try/except`, so extraction
errors reach the `handle_metering_error` decorator.  `modelArg` is the
model name captured from the call arguments. -/
def embed_content_wrapper (sdk : Except PyErr PyVal) (modelArg : Option String) :
    Except PyErr PyVal :=
  handle_metering_error
    (match sdk with
     | .error e => .error e
     | .ok response =>
       match create_google_ai_metering_call response .EMBED modelArg with
       | .error e => .error e
       | .ok _ => .ok response)

/-!
Stream interception.  `google_ai.middleware.StreamWrapper` and
`vertex_ai.middleware.VertexAIStreamWrapper` share the exact same control
flow (`__next__`, `close`, `_finalize`, `_handle_error`, `_process_chunk`,
`_log_usage`); the model below covers both.  The per-chunk metadata
accumulation (`model`, `finish_reason`, `usage_metadata`,
`first_chunk_time`) only feeds the synthetic response built inside
`_log_usage`; whether that synthesis raises is abstracted by the
`logRaises` flag, and a successful synthesis dispatches exactly one
metering submission (counted in `submissions`).
-/

/-- Mutable state of a stream-wrapper instance.  `warnings` counts the
chunk-cap warnings emitted by `_process_chunk` and `submissions` counts
the metering submissions dispatched by `_log_usage`. -/
structure StreamWrapper (α : Type) where
  chunks : List α
  maxChunks : Nat
  closed : Bool
  usageLogged : Bool
  warnings : Nat
  submissions : Nat
deriving Repr

/-- A freshly constructed wrapper (`__init__`); the source hard-codes
`_max_chunks = 1000`. -/
def StreamWrapper.init (α : Type) (maxChunks : Nat) : StreamWrapper α :=
  ⟨[], maxChunks, false, false, 0, 0⟩

/-- Model of `_process_chunk` (buffering part): append while below the cap,
emit a warning each time a chunk arrives while the buffer holds exactly
`_max_chunks` chunks. -/
def StreamWrapper.processChunk (st : StreamWrapper α) (c : α) : StreamWrapper α :=
  if st.chunks.length < st.maxChunks then { st with chunks := st.chunks ++ [c] }
  else if st.chunks.length = st.maxChunks then { st with warnings := st.warnings + 1 }
  else st

/-- Model of `_log_usage`: with no chunks it returns early without
submitting; otherwise it either raises before dispatch (`logRaises`, the
`StreamingError` path) or dispatches exactly one submission.  The returned
flag reports whether it raised. -/
def StreamWrapper.logUsage (logRaises : Bool) (st : StreamWrapper α) :
    StreamWrapper α × Bool :=
  if st.chunks.isEmpty then (st, false)
  else if logRaises then (st, true)
  else ({ st with submissions := st.submissions + 1 }, false)

/-- Model of `_finalize` (run on `StopIteration` from the underlying
stream): log usage unless already logged; `_usage_logged` is set only when
`_log_usage` returned normally, and a raise propagates. -/
def StreamWrapper.finalize (logRaises : Bool) (st : StreamWrapper α) :
    StreamWrapper α × Bool :=
  if st.usageLogged then (st, false)
  else
    match st.logUsage logRaises with
    | (st', true) => (st', true)
    | (st', false) => ({ st' with usageLogged := true }, false)

/-- Model of `_handle_error` (run when the underlying iteration raises):
like `_finalize` but a failure of `_log_usage` is swallowed (logged). -/
def StreamWrapper.handleError (logRaises : Bool) (st : StreamWrapper α) :
    StreamWrapper α :=
  if st.usageLogged then st
  else
    match st.logUsage logRaises with
    | (st', true) => st'
    | (st', false) => { st' with usageLogged := true }

/-- Model of `close`: on the first call it marks the wrapper closed, logs
usage if not yet logged (swallowing failures, and — as in the source —
without setting `_usage_logged`), and clears the chunk buffer; later calls
are no-ops. -/
def StreamWrapper.close (logRaises : Bool) (st : StreamWrapper α) : StreamWrapper α :=
  if st.closed then st
  else if st.usageLogged then { st with closed := true, chunks := [] }
  else { (StreamWrapper.logUsage logRaises { st with closed := true }).1 with chunks := [] }

/-- Outcome of `next(self.stream)` on the underlying iterator. -/
inductive Pull (α : Type) where
  | chunk (c : α)
  | stop
  | exn
deriving Repr

/-- What the consumer observes from one `__next__` call. -/
inductive NextRes (α : Type) where
  | yielded (c : α)
  | stopped
  | errored
deriving Repr

/-- Model of `__next__`: a closed wrapper raises `StopIteration` at once;
otherwise the underlying pull is forwarded, with `_finalize` on
exhaustion (whose `StreamingError` would propagate) and `_handle_error`
before re-raising an underlying exception. -/
def StreamWrapper.next (logRaises : Bool) (st : StreamWrapper α) (pull : Pull α) :
    StreamWrapper α × NextRes α :=
  if st.closed then (st, .stopped)
  else
    match pull with
    | .chunk c => (st.processChunk c, .yielded c)
    | .stop =>
      match st.finalize logRaises with
      | (st', true) => (st', .errored)
      | (st', false) => (st', .stopped)
    | .exn => (st.handleError logRaises, .errored)

/-- Consumer-side events driving a wrapper instance: advancing the
iterator (with the underlying outcome) or calling `close()`. -/
inductive StreamAct (α : Type) where
  | next (p : Pull α)
  | close
deriving Repr

/-- One consumer event applied to the state. -/
def StreamWrapper.stepAct (logRaises : Bool) (st : StreamWrapper α) :
    StreamAct α → StreamWrapper α
  | .next p => (st.next logRaises p).1
  | .close => st.close logRaises

/-- A whole interleaving of consumer events. -/
def StreamWrapper.runActs (logRaises : Bool) (st : StreamWrapper α)
    (acts : List (StreamAct α)) : StreamWrapper α :=
  acts.foldl (fun s a => s.stepAct logRaises a) st

/-- Iterating the wrapper over a list of underlying pulls, collecting the
chunks forwarded to the consumer. -/
def StreamWrapper.runNexts (logRaises : Bool) (st : StreamWrapper α) :
    List (Pull α) → StreamWrapper α × List α
  | [] => (st, [])
  | p :: ps =>
    match st.next logRaises p with
    | (st', .yielded c) =>
      match StreamWrapper.runNexts logRaises st' ps with
      | (stf, outs) => (stf, c :: outs)
    | (st', _) =>
      match StreamWrapper.runNexts logRaises st' ps with
      | (stf, outs) => (stf, outs)

/-!
Subscriber normalization of `utils.log_token_usage` (the
`completion_args["subscriber"]` construction, lines 203-250).  Caller
metadata is a dict modelled as an association list of `PyVal`s; nested
dicts are `PyVal.obj`.
-/

/-- The subscriber-object construction of `log_token_usage`: the nested
`subscriber` dict is copied verbatim when present (and an empty dict when
the value is not a dict); otherwise the deprecated flat keys are folded
into the nested shape, each included only when truthy, with the
credential sub-object assembled the same way. -/
def buildSubscriberData (usage_metadata : List (String × PyVal)) : List (String × PyVal) :=
  match usage_metadata.lookup "subscriber" with
  | some v =>
    match v with
    | .obj d => d
    | _ => []
  | Option.none =>
    let idv := (usage_metadata.lookup "subscriber_id").getD .none
    let emailv := (usage_metadata.lookup "subscriber_email").getD .none
    let cnamev := (usage_metadata.lookup "subscriber_credential_name").getD .none
    let cvalv := (usage_metadata.lookup "subscriber_credential").getD .none
    let base :=
      (if idv.truthy then [("id", idv)] else [])
        ++ (if emailv.truthy then [("email", emailv)] else [])
    let cred :=
      (if cnamev.truthy then [("name", cnamev)] else [])
        ++ (if cvalv.truthy then [("value", cvalv)] else [])
    base ++ (if cred.isEmpty then [] else [("credential", .obj cred)])

/-- The subscriber field of the backend payload: present iff the built
subscriber object is non-empty (`if subscriber_data:`), so an empty
object is never sent. -/
def payloadSubscriber (usage_metadata : List (String × PyVal)) : Option PyVal :=
  let sd := buildSubscriberData usage_metadata
  if sd.isEmpty then Option.none else some (.obj sd)

/-!
URL normalization (`utils.ensure_meter_in_url`).  Strings are modelled as
lists of character code points (`Str`), and `urllib.parse.urlparse` is
modelled by `urlparse` below, restricted to the scheme/netloc/path/query/
fragment splitting the function consumes; the stdlib's IPv6-bracket
validation and control-character sanitization are not modelled.
-/

/-- Strings as code-point lists, for character-level reasoning. -/
abbrev Str := List Nat

/-- Code points of a Lean string literal. -/
def strOf (s : String) : Str := s.data.map Char.toNat

/-- ASCII letter. -/
def isAlphaCh (c : Nat) : Bool := (65 ≤ c ∧ c ≤ 90) ∨ (97 ≤ c ∧ c ≤ 122)

/-- Characters allowed in a URL scheme (letters, digits, `+`, `-`, `.`). -/
def isSchemeChar (c : Nat) : Bool :=
  (65 ≤ c ∧ c ≤ 90) ∨ (97 ≤ c ∧ c ≤ 122) ∨ (48 ≤ c ∧ c ≤ 57) ∨ c = 43 ∨ c = 45 ∨ c = 46

/-- ASCII lower-casing of one character (Python `str.lower` on the scheme). -/
def lowerCh (c : Nat) : Nat := if 65 ≤ c ∧ c ≤ 90 then c + 32 else c

/-- Python whitespace, for the `base_url.strip()` emptiness test. -/
def isWsCh (c : Nat) : Bool := c = 32 ∨ c = 9 ∨ c = 10 ∨ c = 13 ∨ c = 11 ∨ c = 12

/-- Model of `not base_url.strip()`: every character is whitespace (also
true of the empty string). -/
def isBlank (s : Str) : Bool := s.all isWsCh

/-- Characters ending the netloc component (`/`, `?`, `#`). -/
def notDelim (c : Nat) : Bool := ¬ (c = 47 ∨ c = 63 ∨ c = 35)

/-- Not a colon (for the scheme split at the first `:`). -/
def notColonCh (c : Nat) : Bool := ¬ c = 58

/-- Not a hash (for the fragment split at the first `#`). -/
def notHashCh (c : Nat) : Bool := ¬ c = 35

/-- Not a question mark (for the query split at the first `?`). -/
def notQmCh (c : Nat) : Bool := ¬ c = 63

/-- A slash (for `rstrip("/")`). -/
def isSlashCh (c : Nat) : Bool := c = 47

/-- Not a slash (for `rsplit("/", 1)`). -/
def notSlashCh (c : Nat) : Bool := ¬ c = 47

/-- Scheme splitting of `urllib.parse.urlsplit`: the text before the first
`:` is the scheme when it is a non-empty run of scheme characters starting
with a letter; it is lower-cased and removed together with the colon,
otherwise the URL is left untouched. -/
def splitScheme (url : Str) : Str × Str :=
  if url.dropWhile notColonCh = [] then ([], url)
  else if url.takeWhile notColonCh ≠ []
      ∧ isAlphaCh ((url.takeWhile notColonCh).headD 0) = true
      ∧ (url.takeWhile notColonCh).all isSchemeChar = true then
    ((url.takeWhile notColonCh).map lowerCh, (url.dropWhile notColonCh).drop 1)
  else ([], url)

/-- Netloc splitting of `urlsplit`: after a leading `//`, the netloc runs
up to the next `/`, `?` or `#`. -/
def splitNetloc (rest : Str) : Str × Str :=
  if rest.take 2 = [47, 47] then
    ((rest.drop 2).takeWhile notDelim, (rest.drop 2).dropWhile notDelim)
  else ([], rest)

/-- Fragment removal (`url.split('#', 1)[0]`). -/
def stripFragment (s : Str) : Str := s.takeWhile notHashCh

/-- Query removal (`url.split('?', 1)[0]`). -/
def stripQuery (s : Str) : Str := s.takeWhile notQmCh

/-- Parsed URL components consumed by `ensure_meter_in_url`. -/
structure ParsedUrl where
  scheme : Str
  netloc : Str
  path : Str

/-- Model of `urllib.parse.urlparse`, restricted to the components
`ensure_meter_in_url` reads. -/
def urlparse (url : Str) : ParsedUrl :=
  ⟨(splitScheme url).1,
   (splitNetloc (splitScheme url).2).1,
   stripQuery (stripFragment (splitNetloc (splitScheme url).2).2)⟩

/-- Python `s.rstrip("/")`. -/
def rstripSlash (s : Str) : Str := (s.reverse.dropWhile isSlashCh).reverse

/-- The version suffixes stripped by `ensure_meter_in_url`. -/
def versionSuffixes : List Str :=
  [strOf "/v1", strOf "/v2", strOf "/v3", strOf "/v4", strOf "/v5"]

/-- Model of `path.endswith(("/v1", "/v2", "/v3", "/v4", "/v5"))`. -/
def endsWithVersion (p : Str) : Bool := versionSuffixes.any (fun v => v.isSuffixOf p)

/-- Model of `path.rsplit("/", 1)[0]`: everything before the last `/`, or
the whole string when it contains none. -/
def rsplitSlashHead (p : Str) : Str :=
  if 47 ∈ p then ((p.reverse.dropWhile notSlashCh).drop 1).reverse
  else p

/-- The documented default metering URL. -/
def defaultMeterUrl : Str := strOf "https://api.revenium.ai/meter"

/-- The `parsed.scheme or "https"` fallback. -/
def schemeOr (p : ParsedUrl) : Str := if p.scheme = [] then strOf "https" else p.scheme

/-- The version-suffix stripping applied to the path. -/
def finalPath (p : Str) : Str := if endsWithVersion p then rsplitSlashHead p else p

/-- Body of `utils.ensure_meter_in_url` on a non-`None` base URL: blank
input or an empty netloc yields the default; a path already ending in
`/meter` (after trailing-slash and version stripping) is kept; otherwise
`/meter` replaces the path. -/
def ensureCore (s : Str) : Str :=
  if isBlank s = true then defaultMeterUrl
  else if (urlparse (rstripSlash s)).netloc = [] then defaultMeterUrl
  else if (strOf "/meter").isSuffixOf
      (finalPath (rstripSlash (urlparse (rstripSlash s)).path)) = true then
    schemeOr (urlparse (rstripSlash s)) ++ strOf "://"
      ++ (urlparse (rstripSlash s)).netloc
      ++ finalPath (rstripSlash (urlparse (rstripSlash s)).path)
  else
    schemeOr (urlparse (rstripSlash s)) ++ strOf "://"
      ++ (urlparse (rstripSlash s)).netloc ++ strOf "/meter"

/-- Model of `utils.ensure_meter_in_url`.  `base_url` is the argument
(`Option.none` for Python `None`) and `env` the value of the
`REVENIUM_METERING_BASE_URL` environment variable. -/
def ensure_meter_in_url (base_url : Option Str) (env : Option Str) : Str :=
  match (match base_url with
         | Option.none => env
         | some s => some s) with
  | Option.none => defaultMeterUrl
  | some s => ensureCore s

/-- Are all probed token attributes, when present, ints?  Under this
condition the `> 0` comparisons of `has_token_counts` cannot raise. -/
def probedAttrsInt (usage : PyVal) : Bool :=
  token_attrs.all (fun a =>
    match usage.getattr? a with
    | some v => v.isInt
    | Option.none => true)

/-- Specification-side function for claim C10, written from the claim's
words (not from the source, deliberately): the value of the first
candidate attribute holding a positive int, if any. -/
def firstPositiveIntSpec (usage : PyVal) (names : List String) : Option Int :=
  names.findSome? (fun a =>
    match usage.getattr? a with
    | some (.int v) => if 0 < v then some v else Option.none
    | _ => Option.none)

end Revenium

namespace Revenium

/-! ### Theorems -/

/-- Helper: the attribute loop of `get_token_count` agrees with the
first-positive-int specification. -/
theorem getTokenCountGo_eq_spec (usage : PyVal) (names : List String) :
    getTokenCountGo usage names = (firstPositiveIntSpec usage names).getD 0 := by
  induction names with
  | nil => rfl
  | cons a rest ih =>
    simp only [getTokenCountGo, firstPositiveIntSpec, List.findSome?_cons, safe_getattr]
    cases h : usage.getattr? a with
    | none => simpa [firstPositiveIntSpec] using ih
    | some v =>
      cases v <;> simp_all [firstPositiveIntSpec]
      split <;> simp_all [firstPositiveIntSpec]

/-- Helper: the attribute loop of `get_token_count` never returns a
negative value. -/
theorem getTokenCountGo_nonneg (usage : PyVal) (names : List String) :
    0 ≤ getTokenCountGo usage names := by
  induction names with
  | nil => simp [getTokenCountGo]
  | cons a rest ih =>
    simp only [getTokenCountGo]
    cases h : safe_getattr usage a (.int 0) <;> try exact ih
    rename_i v
    split <;> omega

/-- Helper: `get_token_count` is non-negative. -/
theorem get_token_count_nonneg (usage : PyVal) (names : List String) :
    0 ≤ get_token_count usage names := by
  unfold get_token_count
  split
  · exact getTokenCountGo_nonneg usage names
  · omega

/-- Helper: `assembleCounts` only produces non-negative int fields. -/
theorem assembleCounts_shape (usage : PyVal) (found : Bool) (op : OperationType) :
    ∃ i o t c : Int, assembleCounts usage found op = ⟨.int i, .int o, .int t, .int c⟩
      ∧ 0 ≤ i ∧ 0 ≤ o ∧ 0 ≤ t ∧ 0 ≤ c := by
  unfold assembleCounts
  have hg : ∀ names, 0 ≤ get_token_count usage names := fun names =>
    get_token_count_nonneg usage names
  refine ⟨_, _, _, _, rfl, ?_, ?_, ?_, ?_⟩
  · split
    · exact hg _
    · omega
  · split
    · omega
    · split
      · exact hg _
      · omega
  · split <;> split <;> split <;>
      first
        | exact add_nonneg (hg _) (hg _)
        | exact add_nonneg (hg _) le_rfl
        | exact add_nonneg le_rfl (hg _)
        | exact hg _
        | omega
  · split
    · exact hg _
    · omega

/-- Helper: every successful result of the body of `extract_token_counts`
consists of non-negative int fields. -/
theorem extractTokenCountsBody_ok_shape (response : PyVal) (op : OperationType)
    (tc : TokenCounts) (h : extractTokenCountsBody response op = .ok tc) :
    ∃ i o t c : Int, tc = ⟨.int i, .int o, .int t, .int c⟩
      ∧ 0 ≤ i ∧ 0 ≤ o ∧ 0 ≤ t ∧ 0 ≤ c := by
  unfold extractTokenCountsBody at h
  split at h
  · exact ⟨0, 0, 0, 0, by injection h with h'; exact h'.symm, by omega, by omega, by omega,
      by omega⟩
  · split at h
    · exact absurd h (by simp)
    · rename_i b _
      injection h with h'
      obtain ⟨i, o, t, c, heq, hi, ho, ht, hc⟩ := assembleCounts_shape (usageOf response) b op
      exact ⟨i, o, t, c, h' ▸ heq, hi, ho, ht, hc⟩

/-- Helper: every successful result of `extract_token_counts` consists of
non-negative int fields. -/
theorem extract_token_counts_ok_shape (response : PyVal) (op : OperationType)
    (tc : TokenCounts) (h : extract_token_counts response op = .ok tc) :
    ∃ i o t c : Int, tc = ⟨.int i, .int o, .int t, .int c⟩
      ∧ 0 ≤ i ∧ 0 ≤ o ∧ 0 ≤ t ∧ 0 ≤ c := by
  unfold extract_token_counts safe_extract at h
  split at h
  · rename_i a heq
    injection h with h'
    subst h'
    exact extractTokenCountsBody_ok_shape response op _ heq
  all_goals exact absurd h (by simp)

/-- Claim C10: `get_token_count` returns the value of the first candidate
attribute whose value is a positive int, skipping absent, non-int, zero or
negative candidates, and `0` when no candidate qualifies or the usage
object is falsy; consequently every token count produced by
`extract_token_counts` is a non-negative integer. -/
theorem get_token_count_spec (usage : PyVal) (names : List String) :
    get_token_count usage names =
      (if usage.truthy then (firstPositiveIntSpec usage names).getD 0 else 0)
    ∧ 0 ≤ get_token_count usage names
    ∧ (∀ response op tc, extract_token_counts response op = .ok tc →
        ∃ i o t c : Int, tc = ⟨.int i, .int o, .int t, .int c⟩
          ∧ 0 ≤ i ∧ 0 ≤ o ∧ 0 ≤ t ∧ 0 ≤ c) := by
  refine ⟨?_, get_token_count_nonneg usage names, ?_⟩
  · unfold get_token_count
    split
    · exact getTokenCountGo_eq_spec usage names
    · rfl
  · intro response op tc h
    exact extract_token_counts_ok_shape response op tc h

/-- Witness for C10 at a concrete usage object and a concrete extraction. -/
theorem get_token_count_spec_witness :
    get_token_count (.obj [("prompt_tokens", PyVal.int 5)])
        ["prompt_token_count", "prompt_tokens"]
      = (if (PyVal.obj [("prompt_tokens", PyVal.int 5)]).truthy then
          (firstPositiveIntSpec (.obj [("prompt_tokens", PyVal.int 5)])
            ["prompt_token_count", "prompt_tokens"]).getD 0
        else 0)
    ∧ (∃ i o t c : Int,
        (⟨.int 0, .int 0, .int 0, .int 0⟩ : TokenCounts) = ⟨.int i, .int o, .int t, .int c⟩
          ∧ 0 ≤ i ∧ 0 ≤ o ∧ 0 ≤ t ∧ 0 ≤ c) :=
  ⟨(get_token_count_spec (.obj [("prompt_tokens", PyVal.int 5)])
      ["prompt_token_count", "prompt_tokens"]).1,
   (get_token_count_spec PyVal.none []).2.2 PyVal.none .CHAT
      ⟨.int 0, .int 0, .int 0, .int 0⟩ rfl⟩

/-- Claim C4: for both SDK extraction paths, EMBED-kind extraction always
yields an output token count of `0`, whatever the response exposes. -/
theorem embed_output_tokens_zero :
    (∀ response tc, extract_token_counts response .EMBED = .ok tc →
      tc.output_tokens = .int 0)
    ∧ (∀ response tc, extract_vertex_ai_embedding_tokens response = .ok tc →
      tc.output_tokens = .int 0) := by
  constructor
  · intro response tc h
    unfold extract_token_counts safe_extract at h
    split at h
    · rename_i a heq
      injection h with h'
      subst h'
      unfold extractTokenCountsBody at heq
      split at heq
      · injection heq with h2
        subst h2
        rfl
      · split at heq
        · exact absurd heq (by simp)
        · injection heq with h2
          subst h2
          rfl
    all_goals exact absurd h (by simp)
  · intro response tc h
    unfold extract_vertex_ai_embedding_tokens at h
    split at h
    · unfold vertexEmbListCase at h
      split_ifs at h
      all_goals
        first
          | (injection h with h'; subst h'; rfl)
          | (split at h
             · exact absurd h (by simp)
             · injection h with h'; subst h'; rfl)
    · split_ifs at h
      all_goals (injection h with h'; subst h'; rfl)

/-- Witness for C4 on concrete EMBED responses through both paths. -/
theorem embed_output_tokens_zero_witness :
    (⟨.int 0, .int 0, .int 0, .int 0⟩ : TokenCounts).output_tokens = .int 0
    ∧ (⟨.int 42, .int 0, .int 42, .int 0⟩ : TokenCounts).output_tokens = .int 0 :=
  ⟨embed_output_tokens_zero.1 PyVal.none ⟨.int 0, .int 0, .int 0, .int 0⟩ rfl,
   embed_output_tokens_zero.2 (.list [.obj [("statistics", .obj [("token_count", .int 42)])]])
      ⟨.int 42, .int 0, .int 42, .int 0⟩ rfl⟩

/-- Claim C6: stop-reason normalization is total into the closed
five-value enumeration, with `None` and every unrecognized code mapping to
`"END"`, for each SDK variant. -/
theorem normalize_stop_reason_total (fr : Option String) (sdk : Provider) :
    normalize_stop_reason fr sdk ∈ validStopReasons
    ∧ (fr = Option.none → normalize_stop_reason fr sdk = "END")
    ∧ (∀ s, fr = some s → s ∉ stopReasonKeys sdk → normalize_stop_reason fr sdk = "END") := by
  cases sdk <;>
    refine ⟨?_, ?_, ?_⟩ <;>
    first
      | (unfold normalize_stop_reason GOOGLE_AI_STOP_REASONS VERTEX_AI_STOP_REASONS
            validStopReasons
         split_ifs <;> simp)
      | (rintro rfl; rfl)
      | (rintro s rfl hs
         unfold normalize_stop_reason GOOGLE_AI_STOP_REASONS VERTEX_AI_STOP_REASONS
         split_ifs <;> simp_all [stopReasonKeys])

/-- Helper: the `has_token_counts` loop cannot raise when every probed
attribute that is present holds an int. -/
theorem hasTokenCountsGo_ok (u : PyVal) (names : List String)
    (h : names.all (fun a =>
      match u.getattr? a with
      | some v => v.isInt
      | Option.none => true) = true) :
    ∃ b, hasTokenCountsGo u names = .ok b := by
  induction names with
  | nil => exact ⟨false, rfl⟩
  | cons a rest ih =>
    simp only [List.all_cons, Bool.and_eq_true] at h
    obtain ⟨ha, hrest⟩ := h
    unfold hasTokenCountsGo
    cases heq : u.getattr? a with
    | none => exact ih hrest
    | some v =>
      rw [heq] at ha
      cases v with
      | int n =>
        by_cases hn : (0 : Int) < n
        · exact ⟨true, by simp [pyGtZero, hn]⟩
        · obtain ⟨b, hb⟩ := ih hrest
          exact ⟨b, by simp [pyGtZero, hn, hb]⟩
      | none => simp [PyVal.isInt] at ha
      | str s => simp [PyVal.isInt] at ha
      | obj l => simp [PyVal.isInt] at ha
      | list l => simp [PyVal.isInt] at ha

/-- Counterexample to claim C3 as stated: model-name extraction does raise
— on a `None` response with no fallback it raises `APIResponseError`. -/
theorem extract_model_name_none_raises :
    extract_model_name PyVal.none Option.none
      = .error (.apiResponseError "Response is None and no fallback model name provided") :=
  rfl

/-- Claim C3 (amended): token-count extraction returns normally on `None`
responses (degrading to zero counts) and on every response whose probed
usage attributes hold ints; model-name extraction returns normally on
every non-`None` response and on `None` with a truthy fallback — but not
on `None` without one, as the counterexample shows. -/
theorem extraction_totality :
    (∀ op, extract_token_counts PyVal.none op = .ok ⟨.int 0, .int 0, .int 0, .int 0⟩)
    ∧ (∀ response op, probedAttrsInt (usageOf response) = true →
        ∃ tc, extract_token_counts response op = .ok tc)
    ∧ (∀ response fb, response.isNone = false →
        ∃ m, extract_model_name response fb = .ok m)
    ∧ (∀ fb, fallbackTruthy fb = true →
        extract_model_name PyVal.none fb = .ok (fb.getD "")) := by
  refine ⟨fun op => rfl, ?_, ?_, ?_⟩
  · intro response op h
    have hbody : ∃ tc, extractTokenCountsBody response op = .ok tc := by
      unfold extractTokenCountsBody
      split
      · exact ⟨_, rfl⟩
      · by_cases ht : (usageOf response).truthy
        · obtain ⟨b, hb⟩ := hasTokenCountsGo_ok (usageOf response) token_attrs h
          rw [if_pos ht]
          unfold has_token_counts
          rw [if_pos ht, hb]
          exact ⟨_, rfl⟩
        · rw [if_neg ht]
          exact ⟨_, rfl⟩
    obtain ⟨tc, htc⟩ := hbody
    exact ⟨tc, by unfold extract_token_counts safe_extract; rw [htc]⟩
  · intro response fb h
    have hbody : ∃ m, extractModelNameBody response fb = .ok m := by
      unfold extractModelNameBody
      rw [h]
      simp only [Bool.false_eq_true, if_false]
      cases heq : extractModelNameGo response model_attrs with
      | some m => exact ⟨m, rfl⟩
      | none =>
        unfold modelNameFallback
        split_ifs <;> exact ⟨_, rfl⟩
    obtain ⟨m, hm⟩ := hbody
    exact ⟨m, by unfold extract_model_name safe_extract; rw [hm]⟩
  · intro fb h
    unfold extract_model_name extractModelNameBody safe_extract
    simp [PyVal.isNone, h]

/-- Witness for C3 (amended) at concrete inputs. -/
theorem extraction_totality_witness :
    extract_token_counts PyVal.none .EMBED = .ok ⟨.int 0, .int 0, .int 0, .int 0⟩
    ∧ (∃ tc, extract_token_counts
        (.obj [("usage", .obj [("total_tokens", .int 9)])]) .CHAT = .ok tc)
    ∧ (∃ m, extract_model_name (.obj []) Option.none = .ok m)
    ∧ extract_model_name PyVal.none (some "gemini-pro") = .ok ((some "gemini-pro").getD "") :=
  ⟨extraction_totality.1 .EMBED,
   extraction_totality.2.1 (.obj [("usage", .obj [("total_tokens", .int 9)])]) .CHAT rfl,
   extraction_totality.2.2.1 (.obj []) Option.none rfl,
   extraction_totality.2.2.2 (some "gemini-pro") rfl⟩

/-- Counterexample to claim C5 as stated: when the usage metadata carries
an explicit total smaller than the input count, extraction uses it as-is,
so `total ≥ I` fails (here total 5 with input 10). -/
theorem chat_total_explicit_smaller :
    extract_token_counts
        (.obj [("usage_metadata", .obj [("prompt_token_count", .int 10),
          ("candidates_token_count", .int 2), ("total_token_count", .int 5)])]) .CHAT
      = .ok ⟨.int 10, .int 2, .int 5, .int 0⟩
    ∧ ¬ ((10 : Int) ≤ 5) :=
  ⟨rfl, by decide⟩

/-- Claim C5 (amended): for a chat response whose usage metadata carries
positive input `I` and output `O` and no explicit total, extraction yields
exactly `total = I + O`, hence `total ≥ I` and `total ≥ O`; an explicit
positive total is used as-is instead (see the counterexample, where it may
be smaller than `I`). -/
theorem chat_total_tokens (I O : Int) (hI : 0 < I) (hO : 0 < O) :
    extract_token_counts
        (.obj [("usage_metadata", .obj [("prompt_token_count", .int I),
          ("candidates_token_count", .int O)])]) .CHAT
      = .ok ⟨.int I, .int O, .int (I + O), .int 0⟩
    ∧ I ≤ I + O ∧ O ≤ I + O := by
  refine ⟨?_, by omega, by omega⟩
  have hI' : decide ((0 : Int) < I) = true := decide_eq_true hI
  have hO' : decide ((0 : Int) < O) = true := decide_eq_true hO
  have hIne : I ≠ 0 := by omega
  have hOne : O ≠ 0 := by omega
  simp +decide [extract_token_counts, safe_extract, extractTokenCountsBody, usageOf, pyOr,
    safe_getattr, PyVal.getattr?, PyVal.truthy, PyVal.isNone, has_token_counts,
    hasTokenCountsGo, token_attrs, pyGtZero, assembleCounts, get_token_count,
    getTokenCountGo, List.lookup, hI', hO', hI, hO, hIne, hOne]

/-- Witness for C5 (amended) at `I = 10`, `O = 2`. -/
theorem chat_total_tokens_witness :
    extract_token_counts
        (.obj [("usage_metadata", .obj [("prompt_token_count", .int 10),
          ("candidates_token_count", .int 2)])]) .CHAT
      = .ok ⟨.int 10, .int 2, .int 12, .int 0⟩
    ∧ (10 : Int) ≤ 12 ∧ (2 : Int) ≤ 12 := by
  simpa using chat_total_tokens 10 2 (by decide) (by decide)

/-- Claim C8: subscriber round-trip — the deprecated flat keys produce the
same nested payload subscriber object as the nested form; and with no
subscriber information (or an empty nested object) the payload carries no
subscriber field at all. -/
theorem subscriber_round_trip :
    payloadSubscriber [("subscriber_id", .str "u1"), ("subscriber_email", .str "e1")]
      = some (.obj [("id", .str "u1"), ("email", .str "e1")])
    ∧ payloadSubscriber [("subscriber", .obj [("id", .str "u1"), ("email", .str "e1")])]
      = some (.obj [("id", .str "u1"), ("email", .str "e1")])
    ∧ payloadSubscriber [("subscriber", .obj [])] = Option.none
    ∧ (∀ md, md.lookup "subscriber" = Option.none →
        ((md.lookup "subscriber_id").getD .none).truthy = false →
        ((md.lookup "subscriber_email").getD .none).truthy = false →
        ((md.lookup "subscriber_credential_name").getD .none).truthy = false →
        ((md.lookup "subscriber_credential").getD .none).truthy = false →
        payloadSubscriber md = Option.none) := by
  refine ⟨rfl, rfl, rfl, ?_⟩
  intro md h1 h2 h3 h4 h5
  unfold payloadSubscriber buildSubscriberData
  rw [h1]
  simp [h2, h3, h4, h5]

/-- Witness for C8 at the empty metadata map and the flat-key map. -/
theorem subscriber_round_trip_witness :
    payloadSubscriber [] = Option.none
    ∧ payloadSubscriber [("subscriber_id", .str "u1"), ("subscriber_email", .str "e1")]
      = some (.obj [("id", .str "u1"), ("email", .str "e1")]) :=
  ⟨subscriber_round_trip.2.2.2 [] rfl rfl rfl rfl rfl, subscriber_round_trip.1⟩

/-- Counterexample to claim C2 as stated: in the embed wrapper an error
raised inside usage extraction (here `extract_model_name` raising
`APIResponseError` on a `None` SDK response with no model argument)
propagates to the caller as a `MeteringError` instead of the wrapper
returning the original SDK response. -/
theorem embed_wrapper_error_escapes :
    embed_content_wrapper (.ok PyVal.none) Option.none = .error .meteringError
    ∧ embed_content_wrapper (.ok PyVal.none) Option.none ≠ .ok PyVal.none :=
  ⟨rfl, fun h => nomatch h⟩

/-- Claim C2 (amended): the google-ai chat wrapper returns the original
response whenever the SDK call succeeds, regardless of the metering
outcome — but SDK errors surface re-wrapped as `MeteringError`, and the
embed wrapper (which has no inner catch) propagates extraction errors as
`MeteringError` instead of returning the response. -/
theorem wrapper_error_containment :
    (∀ response, generate_content_wrapper (.ok response) = .ok response)
    ∧ (∀ e, generate_content_wrapper (.error e) = .error .meteringError)
    ∧ (∀ response modelArg u,
        create_google_ai_metering_call response .EMBED modelArg = .ok u →
        embed_content_wrapper (.ok response) modelArg = .ok response)
    ∧ (∀ response modelArg e,
        create_google_ai_metering_call response .EMBED modelArg = .error e →
        embed_content_wrapper (.ok response) modelArg = .error .meteringError)
    ∧ (∀ e modelArg, embed_content_wrapper (.error e) modelArg = .error .meteringError) := by
  refine ⟨fun response => rfl, ?_, ?_, ?_, ?_⟩
  · intro e
    cases e <;> rfl
  · intro response modelArg u h
    simp [embed_content_wrapper, h, handle_metering_error]
  · intro response modelArg e h
    simp only [embed_content_wrapper, h]
    cases e <;> rfl
  · intro e modelArg
    cases e <;> rfl

/-- Witness for C2 (amended) at concrete calls. -/
theorem wrapper_error_containment_witness :
    generate_content_wrapper (.ok (PyVal.obj [])) = .ok (PyVal.obj [])
    ∧ embed_content_wrapper (.ok (.obj [("model", .str "m")])) Option.none
      = .ok (.obj [("model", .str "m")])
    ∧ embed_content_wrapper (.ok PyVal.none) (some "") = .error .meteringError :=
  ⟨wrapper_error_containment.1 (PyVal.obj []),
   wrapper_error_containment.2.2.1 (.obj [("model", .str "m")]) Option.none () rfl,
   wrapper_error_containment.2.2.2.1 PyVal.none (some "")
      (.apiResponseError "Response is None and no fallback model name provided") rfl⟩

/-- Helper: `_process_chunk` never touches the `closed`, `usageLogged` or
`submissions` fields. -/
theorem processChunk_fields (st : StreamWrapper α) (c : α) :
    (st.processChunk c).closed = st.closed
    ∧ (st.processChunk c).usageLogged = st.usageLogged
    ∧ (st.processChunk c).submissions = st.submissions
    ∧ (st.processChunk c).maxChunks = st.maxChunks := by
  unfold StreamWrapper.processChunk
  split_ifs <;> simp

/-- Helper: per-chunk buffering as a fold of `_process_chunk` from a
canonical state: the first `maxChunks - done.length` chunks are appended
and each further chunk emits one warning. -/
theorem foldl_processChunk {α : Type} (m : Nat) (cl ul : Bool) :
    ∀ (cs done : List α) (w s : Nat), done.length ≤ m →
      cs.foldl (fun (st : StreamWrapper α) c => st.processChunk c) ⟨done, m, cl, ul, w, s⟩
        = ⟨done ++ cs.take (m - done.length), m, cl, ul,
            w + (cs.length - (m - done.length)), s⟩ := by
  intro cs
  induction cs with
  | nil =>
    intro done w s h
    simp
  | cons c cs ih =>
    intro done w s h
    simp only [List.foldl_cons]
    by_cases h1 : done.length < m
    · obtain ⟨k, hk⟩ : ∃ k, m - done.length = k + 1 := ⟨m - done.length - 1, by omega⟩
      have hpc : StreamWrapper.processChunk ⟨done, m, cl, ul, w, s⟩ c
          = ⟨done ++ [c], m, cl, ul, w, s⟩ := by
        simp [StreamWrapper.processChunk, h1]
      rw [hpc, ih (done ++ [c]) w s (by simp [List.length_append]; omega)]
      have h2 : m - (done ++ [c]).length = k := by
        simp only [List.length_append, List.length_singleton]
        omega
      rw [h2, hk, List.take_succ_cons]
      simp only [StreamWrapper.mk.injEq, List.append_assoc, List.singleton_append,
        List.length_cons, List.length_append, List.length_singleton, true_and, and_true]
      omega
    · have h2 : done.length = m := by omega
      have hpc : StreamWrapper.processChunk ⟨done, m, cl, ul, w, s⟩ c
          = ⟨done, m, cl, ul, w + 1, s⟩ := by
        simp [StreamWrapper.processChunk, h1, h2]
      rw [hpc, ih done (w + 1) s h]
      have h3 : m - done.length = 0 := by omega
      rw [h3]
      simp only [List.take_zero, List.append_nil, StreamWrapper.mk.injEq, List.length_cons,
        true_and, and_true]
      omega

/-- Helper: on an open wrapper, iterating over underlying chunks forwards
every chunk unchanged and in order and folds `_process_chunk` over the
state. -/
theorem runNexts_chunks_eq {α : Type} (lr : Bool) :
    ∀ (cs : List α) (st : StreamWrapper α), st.closed = false →
      StreamWrapper.runNexts lr st (cs.map Pull.chunk)
        = (cs.foldl (fun (s : StreamWrapper α) c => s.processChunk c) st, cs) := by
  intro cs
  induction cs with
  | nil =>
    intro st h
    rfl
  | cons c cs ih =>
    intro st h
    have hn : st.next lr (Pull.chunk c) = (st.processChunk c, NextRes.yielded c) := by
      simp [StreamWrapper.next, h]
    have hcl : (st.processChunk c).closed = false := by
      rw [(processChunk_fields st c).1, h]
    simp only [List.map_cons, List.foldl_cons]
    unfold StreamWrapper.runNexts
    rw [hn]
    simp [ih (st.processChunk c) hcl]

/-- Claim C7 (amended): a stream of `n > maxChunks` chunks leaves exactly
`maxChunks` chunks retained (the first ones) while every chunk is
forwarded to the consumer unchanged and in order; however, a warning is
emitted for each chunk arriving once the cap is full — `n - maxChunks`
warnings in total, not a single one (see the counterexample). -/
theorem chunk_retention_cap {α : Type} (m : Nat) (cs : List α) (lr : Bool) :
    (StreamWrapper.runNexts lr (StreamWrapper.init α m) (cs.map Pull.chunk)).2 = cs
    ∧ (StreamWrapper.runNexts lr (StreamWrapper.init α m) (cs.map Pull.chunk)).1.chunks
        = cs.take m
    ∧ (m < cs.length →
        (StreamWrapper.runNexts lr (StreamWrapper.init α m)
            (cs.map Pull.chunk)).1.chunks.length = m
        ∧ (StreamWrapper.runNexts lr (StreamWrapper.init α m)
            (cs.map Pull.chunk)).1.warnings = cs.length - m) := by
  have h := runNexts_chunks_eq lr cs (StreamWrapper.init α m) rfl
  have h2 := foldl_processChunk m false false cs ([] : List α) 0 0 (by simp)
  rw [show StreamWrapper.init α m = ⟨[], m, false, false, 0, 0⟩ from rfl] at h ⊢
  rw [h, h2]
  refine ⟨rfl, by simp, fun hlen => ⟨?_, by simp⟩⟩
  simp only [List.nil_append, List.length_nil, Nat.sub_zero, List.length_take]
  omega

/-- Counterexample to claim C7 as stated: with the source's cap of 1000, a
1500-chunk stream emits 500 cap warnings (one per non-retained chunk),
not a single warning. -/
theorem chunk_cap_warning_repeats :
    (StreamWrapper.runNexts false (StreamWrapper.init Nat 1000)
        ((List.replicate 1500 0).map Pull.chunk)).1.warnings = 500
    ∧ (500 : Nat) ≠ 1 := by
  have h := runNexts_chunks_eq false (List.replicate 1500 (0 : Nat))
    (StreamWrapper.init Nat 1000) rfl
  have h2 := foldl_processChunk 1000 false false (List.replicate 1500 (0 : Nat))
    ([] : List Nat) 0 0 (by simp)
  rw [show StreamWrapper.init Nat 1000 = ⟨[], 1000, false, false, 0, 0⟩ from rfl] at h ⊢
  rw [h, h2]
  refine ⟨?_, by decide⟩
  dsimp only
  simp only [List.length_replicate, List.length_nil, Nat.sub_zero]

/-- Witness for C7 (amended) on a concrete 3-chunk stream with cap 2. -/
theorem chunk_retention_cap_witness :
    (StreamWrapper.runNexts false (StreamWrapper.init Nat 2)
        (([0, 1, 2] : List Nat).map Pull.chunk)).2 = [0, 1, 2]
    ∧ (StreamWrapper.runNexts false (StreamWrapper.init Nat 2)
        (([0, 1, 2] : List Nat).map Pull.chunk)).1.chunks = ([0, 1, 2] : List Nat).take 2
    ∧ ((2 : Nat) < ([0, 1, 2] : List Nat).length →
        (StreamWrapper.runNexts false (StreamWrapper.init Nat 2)
            (([0, 1, 2] : List Nat).map Pull.chunk)).1.chunks.length = 2
        ∧ (StreamWrapper.runNexts false (StreamWrapper.init Nat 2)
            (([0, 1, 2] : List Nat).map Pull.chunk)).1.warnings
            = ([0, 1, 2] : List Nat).length - 2) :=
  chunk_retention_cap 2 [0, 1, 2] false

/-- Helper: `_log_usage` touches only the submission counter — by at most
one — and a raise implies no submission was dispatched. -/
theorem logUsage_fields (lr : Bool) (st : StreamWrapper α) :
    (st.logUsage lr).1.closed = st.closed
    ∧ (st.logUsage lr).1.usageLogged = st.usageLogged
    ∧ (st.logUsage lr).1.chunks = st.chunks
    ∧ (st.logUsage lr).1.maxChunks = st.maxChunks
    ∧ (st.logUsage lr).1.warnings = st.warnings
    ∧ st.submissions ≤ (st.logUsage lr).1.submissions
    ∧ (st.logUsage lr).1.submissions ≤ st.submissions + 1
    ∧ ((st.logUsage lr).2 = true → (st.logUsage lr).1.submissions = st.submissions) := by
  unfold StreamWrapper.logUsage
  split_ifs <;> simp

/-- Helper: one consumer event preserves the at-most-once invariant
(`submissions ≤ 1`, and a dispatched submission implies the usage-logged
flag or the closed flag is set, which freezes further logging). -/
theorem stepAct_inv {α : Type} (lr : Bool) (a : StreamAct α) (st : StreamWrapper α)
    (h1 : st.submissions ≤ 1)
    (h2 : st.submissions = 1 → st.usageLogged = true ∨ st.closed = true) :
    (st.stepAct lr a).submissions ≤ 1
    ∧ ((st.stepAct lr a).submissions = 1 →
        (st.stepAct lr a).usageLogged = true ∨ (st.stepAct lr a).closed = true) := by
  cases a with
  | close =>
    unfold StreamWrapper.stepAct StreamWrapper.close
    by_cases hc : st.closed = true
    · rw [if_pos hc]
      exact ⟨h1, h2⟩
    · rw [if_neg hc]
      by_cases hu : st.usageLogged = true
      · rw [if_pos hu]
        exact ⟨h1, fun _ => Or.inr rfl⟩
      · rw [if_neg hu]
        obtain ⟨hcl, -, -, -, -, hs1, hs2, -⟩ :=
          logUsage_fields lr ({ st with closed := true } : StreamWrapper α)
        have hz : st.submissions = 0 := by
          rcases Nat.lt_or_ge st.submissions 1 with h | h
          · omega
          · have : st.submissions = 1 := by omega
            rcases h2 this with hx | hx
            · exact absurd hx hu
            · exact absurd hx hc
        constructor
        · simp only [] at hs1 hs2 ⊢
          omega
        · intro _
          refine Or.inr ?_
          simpa using hcl
  | next p =>
    cases p with
    | chunk c =>
      unfold StreamWrapper.stepAct StreamWrapper.next
      dsimp only
      by_cases hc : st.closed = true
      · rw [if_pos hc]
        exact ⟨h1, h2⟩
      · rw [if_neg hc]
        obtain ⟨hcl, hul, hs, -⟩ := processChunk_fields st c
        rw [show ((st.processChunk c, NextRes.yielded c) :
            StreamWrapper α × NextRes α).1 = st.processChunk c from rfl]
        rw [hcl, hul, hs]
        exact ⟨h1, h2⟩
    | stop =>
      unfold StreamWrapper.stepAct StreamWrapper.next StreamWrapper.finalize
      dsimp only
      by_cases hc : st.closed = true
      · rw [if_pos hc]
        exact ⟨h1, h2⟩
      · rw [if_neg hc]
        by_cases hu : st.usageLogged = true
        · rw [if_pos hu]
          exact ⟨h1, h2⟩
        · rw [if_neg hu]
          obtain ⟨hcl, hul, -, -, -, hs1, hs2, hraised⟩ := logUsage_fields lr st
          have hz : st.submissions = 0 := by
            rcases Nat.lt_or_ge st.submissions 1 with h | h
            · omega
            · have : st.submissions = 1 := by omega
              rcases h2 this with hx | hx
              · exact absurd hx hu
              · exact absurd hx hc
          rcases hlog : st.logUsage lr with ⟨st', raised⟩
          rw [hlog] at hcl hul hs1 hs2 hraised
          cases raised with
          | true =>
            have := hraised rfl
            simp only [] at this hcl hul ⊢
            rw [hul]
            exact ⟨by omega, fun h => absurd (by omega : st.submissions = 1) (by omega)⟩
          | false =>
            dsimp only at hs1 hs2 hul hcl
            exact ⟨by simpa using (by omega : st'.submissions ≤ 1),
              fun _ => Or.inl (by simp)⟩
    | exn =>
      unfold StreamWrapper.stepAct StreamWrapper.next StreamWrapper.handleError
      dsimp only
      by_cases hc : st.closed = true
      · rw [if_pos hc]
        exact ⟨h1, h2⟩
      · rw [if_neg hc]
        by_cases hu : st.usageLogged = true
        · rw [if_pos hu]
          exact ⟨h1, h2⟩
        · rw [if_neg hu]
          obtain ⟨hcl, hul, -, -, -, hs1, hs2, hraised⟩ := logUsage_fields lr st
          have hz : st.submissions = 0 := by
            rcases Nat.lt_or_ge st.submissions 1 with h | h
            · omega
            · have : st.submissions = 1 := by omega
              rcases h2 this with hx | hx
              · exact absurd hx hu
              · exact absurd hx hc
          rcases hlog : st.logUsage lr with ⟨st', raised⟩
          rw [hlog] at hcl hul hs1 hs2 hraised
          cases raised with
          | true =>
            have := hraised rfl
            simp only [] at this hcl hul ⊢
            rw [hul]
            exact ⟨by omega, fun h => absurd (by omega : st.submissions = 1) (by omega)⟩
          | false =>
            dsimp only at hs1 hs2 hul hcl
            exact ⟨by simpa using (by omega : st'.submissions ≤ 1),
              fun _ => Or.inl (by simp)⟩

/-- Helper: the at-most-once invariant is preserved by any whole
interleaving of consumer events. -/
theorem runActs_inv {α : Type} (lr : Bool) :
    ∀ (acts : List (StreamAct α)) (st : StreamWrapper α),
      st.submissions ≤ 1 →
      (st.submissions = 1 → st.usageLogged = true ∨ st.closed = true) →
      (StreamWrapper.runActs lr st acts).submissions ≤ 1 := by
  intro acts
  induction acts with
  | nil =>
    intro st h1 h2
    exact h1
  | cons a acts ih =>
    intro st h1 h2
    obtain ⟨h1', h2'⟩ := stepAct_inv lr a st h1 h2
    exact ih (st.stepAct lr a) h1' h2'

/-- Helper: once `_usage_logged` is set, no consumer event can log again:
the flag stays set and the submission counter is frozen. -/
theorem stepAct_frozen {α : Type} (lr : Bool) (a : StreamAct α) (st : StreamWrapper α)
    (h : st.usageLogged = true) :
    (st.stepAct lr a).usageLogged = true
    ∧ (st.stepAct lr a).submissions = st.submissions := by
  cases a with
  | close =>
    unfold StreamWrapper.stepAct StreamWrapper.close
    by_cases hc : st.closed = true
    · rw [if_pos hc]
      exact ⟨h, rfl⟩
    · rw [if_neg hc, if_pos h]
      exact ⟨h, rfl⟩
  | next p =>
    unfold StreamWrapper.stepAct StreamWrapper.next
    dsimp only
    by_cases hc : st.closed = true
    · rw [if_pos hc]
      cases p <;> exact ⟨h, rfl⟩
    · rw [if_neg hc]
      cases p with
      | chunk c =>
        obtain ⟨-, hul, hs, -⟩ := processChunk_fields st c
        exact ⟨by rw [hul, h], hs⟩
      | stop =>
        unfold StreamWrapper.finalize
        rw [if_pos h]
        exact ⟨h, rfl⟩
      | exn =>
        unfold StreamWrapper.handleError
        rw [if_pos h]
        exact ⟨h, rfl⟩

/-- Helper: `_usage_logged` freezes the submission counter across any
remaining interleaving. -/
theorem runActs_frozen {α : Type} (lr : Bool) :
    ∀ (acts : List (StreamAct α)) (st : StreamWrapper α), st.usageLogged = true →
      (StreamWrapper.runActs lr st acts).submissions = st.submissions := by
  intro acts
  induction acts with
  | nil =>
    intro st h
    rfl
  | cons a acts ih =>
    intro st h
    obtain ⟨h1, h2⟩ := stepAct_frozen lr a st h
    calc (StreamWrapper.runActs lr (st.stepAct lr a) acts).submissions
        = (st.stepAct lr a).submissions := ih (st.stepAct lr a) h1
      _ = st.submissions := h2

/-- Helper: on a closed wrapper every consumer event is a no-op. -/
theorem stepAct_closed_noop {α : Type} (lr : Bool) (a : StreamAct α) (st : StreamWrapper α)
    (h : st.closed = true) : st.stepAct lr a = st := by
  cases a with
  | close =>
    unfold StreamWrapper.stepAct StreamWrapper.close
    rw [if_pos h]
  | next p =>
    unfold StreamWrapper.stepAct StreamWrapper.next
    dsimp only
    rw [if_pos h]

/-- Helper: on a closed wrapper every remaining interleaving is a no-op. -/
theorem runActs_closed_noop {α : Type} (lr : Bool) :
    ∀ (acts : List (StreamAct α)) (st : StreamWrapper α), st.closed = true →
      StreamWrapper.runActs lr st acts = st := by
  intro acts
  induction acts with
  | nil =>
    intro st h
    rfl
  | cons a acts ih =>
    intro st h
    show StreamWrapper.runActs lr (st.stepAct lr a) acts = st
    rw [stepAct_closed_noop lr a st h]
    exact ih st h

/-- Helper: interleavings compose. -/
theorem runActs_append {α : Type} (lr : Bool) (st : StreamWrapper α)
    (a b : List (StreamAct α)) :
    StreamWrapper.runActs lr st (a ++ b)
      = StreamWrapper.runActs lr (StreamWrapper.runActs lr st a) b := by
  simp [StreamWrapper.runActs, List.foldl_append]

/-- Helper: advancing over underlying chunks (as consumer events) folds
`_process_chunk` over an open wrapper. -/
theorem runActs_chunks_eq {α : Type} (lr : Bool) :
    ∀ (cs : List α) (st : StreamWrapper α), st.closed = false →
      StreamWrapper.runActs lr st (cs.map (fun c => StreamAct.next (Pull.chunk c)))
        = cs.foldl (fun (s : StreamWrapper α) c => s.processChunk c) st := by
  intro cs
  induction cs with
  | nil =>
    intro st h
    rfl
  | cons c cs ih =>
    intro st h
    have hstep : st.stepAct lr (StreamAct.next (Pull.chunk c)) = st.processChunk c := by
      unfold StreamWrapper.stepAct StreamWrapper.next
      dsimp only
      rw [if_neg (by rw [h]; exact fun hx => nomatch hx)]
    have hcl : (st.processChunk c).closed = false := by
      rw [(processChunk_fields st c).1, h]
    simp only [List.map_cons, List.foldl_cons]
    show StreamWrapper.runActs lr (st.stepAct lr (StreamAct.next (Pull.chunk c))) _ = _
    rw [hstep]
    exact ih (st.processChunk c) hcl

/-- Helper: on an open, not-yet-logged wrapper with a non-empty buffer,
natural exhaustion dispatches exactly one submission and sets the
usage-logged flag. -/
theorem stepAct_stop_submits {α : Type} (st : StreamWrapper α)
    (hc : st.closed = false) (hu : st.usageLogged = false) (hch : st.chunks ≠ []) :
    (st.stepAct false (StreamAct.next Pull.stop)).submissions = st.submissions + 1
    ∧ (st.stepAct false (StreamAct.next Pull.stop)).usageLogged = true := by
  have hne : st.chunks.isEmpty = false := by
    rcases hcs : st.chunks with _ | ⟨c, l⟩
    · exact absurd hcs hch
    · rfl
  simp [StreamWrapper.stepAct, StreamWrapper.next, StreamWrapper.finalize,
    StreamWrapper.logUsage, hc, hu, hne]

/-- Helper: on an open, not-yet-logged wrapper with a non-empty buffer, an
explicit `close()` dispatches exactly one submission and closes the
wrapper. -/
theorem stepAct_close_submits {α : Type} (st : StreamWrapper α)
    (hc : st.closed = false) (hu : st.usageLogged = false) (hch : st.chunks ≠ []) :
    (st.stepAct false StreamAct.close).submissions = st.submissions + 1
    ∧ (st.stepAct false StreamAct.close).closed = true := by
  have hne : st.chunks.isEmpty = false := by
    rcases hcs : st.chunks with _ | ⟨c, l⟩
    · exact absurd hcs hch
    · rfl
  simp [StreamWrapper.stepAct, StreamWrapper.close, StreamWrapper.logUsage, hc, hu, hne]

/-- Helper: exhaustion followed by any further events submits exactly
once more than the current counter. -/
theorem runActs_stop_then {α : Type} (st : StreamWrapper α) (rest : List (StreamAct α))
    (hc : st.closed = false) (hu : st.usageLogged = false) (hch : st.chunks ≠ []) :
    (StreamWrapper.runActs false st (StreamAct.next Pull.stop :: rest)).submissions
      = st.submissions + 1 := by
  obtain ⟨hsub, hlog⟩ := stepAct_stop_submits st hc hu hch
  show (StreamWrapper.runActs false (st.stepAct false (StreamAct.next Pull.stop))
    rest).submissions = _
  rw [runActs_frozen false rest _ hlog, hsub]

/-- Helper: `N ≥ 1` explicit closes submit exactly once more than the
current counter (the first close submits, the rest are no-ops). -/
theorem runActs_closes_then {α : Type} (st : StreamWrapper α) (N : Nat)
    (hc : st.closed = false) (hu : st.usageLogged = false) (hch : st.chunks ≠ [])
    (hN : 1 ≤ N) :
    (StreamWrapper.runActs false st (List.replicate N StreamAct.close)).submissions
      = st.submissions + 1 := by
  obtain ⟨k, rfl⟩ : ∃ k, N = k + 1 := ⟨N - 1, by omega⟩
  rw [List.replicate_succ]
  obtain ⟨hsub, hclosed⟩ := stepAct_close_submits st hc hu hch
  show (StreamWrapper.runActs false (st.stepAct false StreamAct.close)
    (List.replicate k StreamAct.close)).submissions = _
  rw [runActs_closed_noop false _ _ hclosed, hsub]

/-- Counterexample to claim C1 as stated: a terminal trigger need not
cause a submission — closing a wrapper that has received no chunks makes
`_log_usage` return early, so the single `close()` of this interleaving
produces zero submissions, not exactly one. -/
theorem stream_reporting_zero_submissions :
    (StreamWrapper.runActs false (StreamWrapper.init Nat 1000)
        [StreamAct.close]).submissions = 0
    ∧ (0 : Nat) ≠ 1 :=
  ⟨rfl, by decide⟩

/-- Claim C1 (amended): across any interleaving of chunk consumption,
natural exhaustion, underlying exceptions and explicit `close()` calls —
and whether or not usage synthesis raises — the Reporter is invoked at
most once per wrapper instance; and when at least one chunk was received
and synthesis succeeds, the first terminal trigger (exhaustion, or the
first of `N ≥ 1` closes) submits exactly once, every later trigger being
a no-op.  An empty stream (see the counterexample) or a failing synthesis
yields zero submissions, so exactly-once does not hold unconditionally. -/
theorem stream_reporting_at_most_once :
    (∀ (α : Type) (lr : Bool) (m : Nat) (acts : List (StreamAct α)),
      (StreamWrapper.runActs lr (StreamWrapper.init α m) acts).submissions ≤ 1)
    ∧ (∀ (α : Type) (cs : List α) (rest : List (StreamAct α)) (m : Nat),
        cs ≠ [] → 0 < m →
        (StreamWrapper.runActs false (StreamWrapper.init α m)
          (cs.map (fun c => StreamAct.next (Pull.chunk c))
            ++ StreamAct.next Pull.stop :: rest)).submissions = 1)
    ∧ (∀ (α : Type) (cs : List α) (m N : Nat), cs ≠ [] → 0 < m → 1 ≤ N →
        (StreamWrapper.runActs false (StreamWrapper.init α m)
          (cs.map (fun c => StreamAct.next (Pull.chunk c))
            ++ List.replicate N StreamAct.close)).submissions = 1) := by
  have htake : ∀ (α : Type) (cs : List α) (m : Nat), cs ≠ [] → 0 < m → cs.take m ≠ [] := by
    intro α cs m hcs hm h
    rcases cs with _ | ⟨c, cs'⟩
    · exact hcs rfl
    · rcases m with _ | m'
      · omega
      · simp [List.take_succ_cons] at h
  refine ⟨?_, ?_, ?_⟩
  · intro α lr m acts
    exact runActs_inv lr acts _ (by simp [StreamWrapper.init]) (by simp [StreamWrapper.init])
  · intro α cs rest m hcs hm
    rw [runActs_append, runActs_chunks_eq false cs _ rfl,
      show StreamWrapper.init α m = (⟨[], m, false, false, 0, 0⟩ : StreamWrapper α) from rfl,
      foldl_processChunk m false false cs [] 0 0 (by simp),
      runActs_stop_then _ rest rfl rfl (by simpa using htake α cs m hcs hm)]
  · intro α cs m N hcs hm hN
    rw [runActs_append, runActs_chunks_eq false cs _ rfl,
      show StreamWrapper.init α m = (⟨[], m, false, false, 0, 0⟩ : StreamWrapper α) from rfl,
      foldl_processChunk m false false cs [] 0 0 (by simp),
      runActs_closes_then _ N rfl rfl (by simpa using htake α cs m hcs hm) hN]

/-- Witness for C1 (amended) on concrete interleavings. -/
theorem stream_reporting_at_most_once_witness :
    (StreamWrapper.runActs false (StreamWrapper.init Nat 1)
        [StreamAct.close]).submissions ≤ 1
    ∧ (StreamWrapper.runActs false (StreamWrapper.init Nat 2)
        (([5] : List Nat).map (fun c => StreamAct.next (Pull.chunk c))
          ++ StreamAct.next Pull.stop :: [StreamAct.close])).submissions = 1
    ∧ (StreamWrapper.runActs false (StreamWrapper.init Nat 2)
        (([5] : List Nat).map (fun c => StreamAct.next (Pull.chunk c))
          ++ List.replicate 3 StreamAct.close)).submissions = 1 :=
  ⟨stream_reporting_at_most_once.1 Nat false 1 [StreamAct.close],
   stream_reporting_at_most_once.2.1 Nat [5] [StreamAct.close] 2 (by decide) (by decide),
   stream_reporting_at_most_once.2.2 Nat [5] 2 3 (by decide) (by decide) (by decide)⟩

/-- Helper: ASCII lower-casing is idempotent. -/
theorem lowerCh_idem (c : Nat) : lowerCh (lowerCh c) = lowerCh c := by
  unfold lowerCh
  split_ifs <;> omega

/-- Helper: lower-casing a whole scheme twice equals doing it once. -/
theorem map_lowerCh_idem (s : Str) : (s.map lowerCh).map lowerCh = s.map lowerCh := by
  induction s with
  | nil => rfl
  | cons c s ih => simp [lowerCh_idem, ih]

/-- Helper: lower-casing preserves letters. -/
theorem lowerCh_alpha (c : Nat) (h : isAlphaCh c = true) : isAlphaCh (lowerCh c) = true := by
  simp only [isAlphaCh, decide_eq_true_eq] at h ⊢
  unfold lowerCh
  split_ifs <;> omega

/-- Helper: lower-casing preserves scheme characters. -/
theorem lowerCh_scheme (c : Nat) (h : isSchemeChar c = true) :
    isSchemeChar (lowerCh c) = true := by
  simp only [isSchemeChar, decide_eq_true_eq] at h ⊢
  unfold lowerCh
  split_ifs <;> omega

/-- Helper: scheme characters are not colons. -/
theorem schemeChar_notColon (c : Nat) (h : isSchemeChar c = true) : notColonCh c = true := by
  simp only [isSchemeChar, notColonCh, decide_eq_true_eq] at h ⊢
  omega

/-- Helper: letters are not whitespace. -/
theorem alpha_not_ws (c : Nat) (h : isAlphaCh c = true) : isWsCh c = false := by
  simp only [isAlphaCh, isWsCh, decide_eq_true_eq, decide_eq_false_iff_not] at h ⊢
  omega

/-- Helper: a `takeWhile` of a list all of whose elements satisfy the
predicate is the list itself. -/
theorem takeWhile_all_eq {p : Nat → Bool} (l : Str) (h : l.all p = true) :
    l.takeWhile p = l := by
  induction l with
  | nil => rfl
  | cons c t ih =>
    simp only [List.all_cons, Bool.and_eq_true] at h
    rw [List.takeWhile_cons, if_pos h.1, ih h.2]

/-- Helper: a string ending in a non-slash character is unchanged by
`rstrip("/")`. -/
theorem rstripSlash_last (l : Str) (c : Nat) (h : isSlashCh c = false) :
    rstripSlash (l ++ [c]) = l ++ [c] := by
  unfold rstripSlash
  rw [List.reverse_append]
  simp [List.dropWhile_cons, h]

/-- Helper: `rstrip("/")` keeps an initial segment of its input. -/
theorem rstripSlash_init (l : Str) : ∃ t, l = rstripSlash l ++ t := by
  refine ⟨(l.reverse.takeWhile isSlashCh).reverse, ?_⟩
  unfold rstripSlash
  conv_lhs => rw [← List.reverse_reverse l, ← List.takeWhile_append_dropWhile
    (p := isSlashCh) (l := l.reverse)]
  rw [List.reverse_append]

/-- Helper: `rsplit("/", 1)[0]` keeps an initial segment of its input. -/
theorem rsplitSlashHead_init (l : Str) : ∃ t, l = rsplitSlashHead l ++ t := by
  unfold rsplitSlashHead
  split_ifs with h
  · rcases hd : l.reverse.dropWhile notSlashCh with _ | ⟨c, tl⟩
    · exact ⟨l, by simp [hd]⟩
    · refine ⟨c :: (l.reverse.takeWhile notSlashCh).reverse, ?_⟩
      conv_lhs => rw [← List.reverse_reverse l, ← List.takeWhile_append_dropWhile
        (p := notSlashCh) (l := l.reverse)]
      rw [hd]
      simp [List.reverse_append]
  · exact ⟨[], by simp⟩

/-- Helper: an initial segment inherits an `all` bound. -/
theorem all_of_init {p : Nat → Bool} (a t l : Str) (hl : l = a ++ t) (h : l.all p = true) :
    a.all p = true := by
  subst hl
  simp only [List.all_append, Bool.and_eq_true] at h
  exact h.1

/-- Helper: a non-empty initial segment has the same head. -/
theorem headD_of_init (a t l : Str) (hl : l = a ++ t) (ha : a ≠ []) :
    a.headD 0 = l.headD 0 := by
  subst hl
  rcases a with _ | ⟨c, a'⟩
  · exact absurd rfl ha
  · rfl

/-- Helper: a non-empty `takeWhile` has the same head as its input. -/
theorem takeWhile_headD {p : Nat → Bool} (l : Str) (h : l.takeWhile p ≠ []) :
    (l.takeWhile p).headD 0 = l.headD 0 := by
  rcases l with _ | ⟨c, l'⟩
  · rfl
  · rw [List.takeWhile_cons] at h ⊢
    by_cases hc : p c = true
    · rw [if_pos hc]
      rfl
    · rw [if_neg hc] at h
      exact absurd rfl h

/-- Helper: every scheme produced by `splitScheme` is empty, or non-empty,
letter-headed, made of scheme characters and already lower-case. -/
theorem splitScheme_shape (url : Str) :
    (splitScheme url).1 = []
    ∨ ((splitScheme url).1 ≠ []
        ∧ isAlphaCh ((splitScheme url).1.headD 0) = true
        ∧ (splitScheme url).1.all isSchemeChar = true
        ∧ (splitScheme url).1.map lowerCh = (splitScheme url).1) := by
  unfold splitScheme
  split_ifs with h1 h2
  · left
    rfl
  · right
    obtain ⟨hne, hh, hall⟩ := h2
    refine ⟨by simpa using hne, ?_, ?_, by simpa using map_lowerCh_idem _⟩
    · rcases hpre : url.takeWhile notColonCh with _ | ⟨c, rest⟩
      · exact absurd hpre hne
      · rw [hpre] at hh
        simpa using lowerCh_alpha c (by simpa using hh)
    · simp only []
      rw [List.all_eq_true] at hall ⊢
      intro x hx
      rw [List.mem_map] at hx
      obtain ⟨a, ha, rfl⟩ := hx
      exact lowerCh_scheme a (hall a ha)
  · left
    rfl

/-- Helper: every netloc produced by `splitNetloc` contains no delimiter,
and when it is non-empty the remainder is empty or starts with a
delimiter. -/
theorem splitNetloc_shape (rest : Str) :
    (splitNetloc rest).1.all notDelim = true
    ∧ ((splitNetloc rest).1 ≠ [] →
        (splitNetloc rest).2 = [] ∨ notDelim ((splitNetloc rest).2.headD 0) = false) := by
  unfold splitNetloc
  split_ifs with h
  · refine ⟨by simp, fun hne => ?_⟩
    rcases hd : (rest.drop 2).dropWhile notDelim with _ | ⟨c, tl⟩
    · exact Or.inl (by simp [hd])
    · right
      have hh := List.head?_dropWhile_not notDelim (rest.drop 2)
      rw [hd] at hh
      simpa [hd] using hh
  · exact ⟨rfl, fun hne => absurd rfl hne⟩

/-- Helper: parsing the canonical concatenation
`scheme ++ "://" ++ netloc ++ path` recovers its three components, for a
well-formed lower-case scheme, a delimiter-free non-empty netloc and a
slash-headed path. -/
theorem urlparse_concat (sch n pth : Str)
    (h1 : sch ≠ []) (h2 : isAlphaCh (sch.headD 0) = true)
    (h3 : sch.all isSchemeChar = true) (h4 : sch.map lowerCh = sch)
    (h6 : n.all notDelim = true)
    (h8 : pth.headD 0 = 47) (hne : pth ≠ [])
    (h9 : pth.all notHashCh = true) (h10 : pth.all notQmCh = true) :
    urlparse (sch ++ strOf "://" ++ n ++ pth) = ⟨sch, n, pth⟩ := by
  obtain ⟨p0, pt, rfl⟩ : ∃ p0 pt, pth = p0 :: pt := by
    rcases pth with _ | ⟨p0, pt⟩
    · exact absurd rfl hne
    · exact ⟨p0, pt, rfl⟩
  have hp0 : p0 = 47 := by simpa using h8
  subst hp0
  have hcolon : ∀ a ∈ sch, notColonCh a = true := fun a ha =>
    schemeChar_notColon a (List.all_eq_true.1 h3 a ha)
  have harr : sch ++ strOf "://" ++ n ++ (47 :: pt)
      = sch ++ (58 :: 47 :: 47 :: (n ++ (47 :: pt))) := by
    simp [strOf]
  have ht : List.takeWhile notColonCh (58 :: 47 :: 47 :: (n ++ (47 :: pt))) = [] := by
    simp [List.takeWhile_cons, notColonCh]
  have hdw : List.dropWhile notColonCh (58 :: 47 :: 47 :: (n ++ (47 :: pt)))
      = 58 :: 47 :: 47 :: (n ++ (47 :: pt)) := by
    simp [List.dropWhile_cons, notColonCh]
  have hsplit : splitScheme (sch ++ strOf "://" ++ n ++ (47 :: pt))
      = (sch, 47 :: 47 :: (n ++ (47 :: pt))) := by
    unfold splitScheme
    rw [harr, List.takeWhile_append_of_pos hcolon, List.dropWhile_append_of_pos hcolon,
      ht, hdw, List.append_nil]
    rw [if_neg (show ¬ (58 :: 47 :: 47 :: (n ++ (47 :: pt)) = ([] : Str)) by simp)]
    rw [if_pos ⟨h1, h2, h3⟩]
    rw [h4]
    rfl
  have hdelim : ∀ a ∈ n, notDelim a = true := List.all_eq_true.1 h6
  have hnet : splitNetloc (47 :: 47 :: (n ++ (47 :: pt))) = (n, 47 :: pt) := by
    unfold splitNetloc
    rw [if_pos (by simp)]
    simp only [List.drop_succ_cons, List.drop_zero]
    rw [List.takeWhile_append_of_pos hdelim, List.dropWhile_append_of_pos hdelim]
    rw [List.takeWhile_cons, List.dropWhile_cons]
    rw [if_neg (by simp [notDelim]), if_neg (by simp [notDelim])]
    simp
  unfold urlparse
  rw [hsplit]
  simp only []
  rw [hnet]
  simp only [stripFragment, stripQuery]
  rw [takeWhile_all_eq _ h9, takeWhile_all_eq _ h10]

/-- Helper: the code points of the literal `"/meter"`. -/
theorem strOf_meter : strOf "/meter" = [47, 109, 101, 116, 101, 114] := rfl

/-- Helper: a path ending in `/meter` is non-empty. -/
theorem meter_ne_nil (pth : Str) (h : ∃ q, pth = q ++ strOf "/meter") : pth ≠ [] := by
  obtain ⟨q, rfl⟩ := h
  rw [strOf_meter]
  intro hx
  have := congrArg List.length hx
  simp at this

/-- Helper: a path ending in `/meter` does end in `/meter`. -/
theorem meter_isSuffixOf (pth : Str) (h : ∃ q, pth = q ++ strOf "/meter") :
    (strOf "/meter").isSuffixOf pth = true := by
  obtain ⟨q, rfl⟩ := h
  exact (List.isSuffixOf_iff_suffix).2 (List.suffix_append q _)

/-- Helper: a path ending in `/meter` is unchanged by `rstrip("/")`. -/
theorem rstripSlash_meter (pth : Str) (h : ∃ q, pth = q ++ strOf "/meter") :
    rstripSlash pth = pth := by
  obtain ⟨q, rfl⟩ := h
  rw [show strOf "/meter" = [47, 109, 101, 116, 101] ++ [114] from rfl, ← List.append_assoc]
  exact rstripSlash_last _ 114 (by decide)

/-- Helper: a path ending in `/meter` does not end in a version suffix. -/
theorem endsWithVersion_meter (pth : Str) (h : ∃ q, pth = q ++ strOf "/meter") :
    endsWithVersion pth = false := by
  obtain ⟨q, rfl⟩ := h
  have hsuf : strOf "/meter" <:+ q ++ strOf "/meter" := List.suffix_append q _
  unfold endsWithVersion versionSuffixes
  rw [List.any_eq_false]
  intro v hv hcon
  have h1 := (List.isSuffixOf_iff_suffix).1 hcon
  simp only [List.mem_cons, List.not_mem_nil, or_false] at hv
  rcases hv with rfl | rfl | rfl | rfl | rfl <;>
    exact absurd (List.suffix_of_suffix_length_le h1 hsuf (by decide)) (by decide)

/-- Helper: the output strings of `ensure_meter_in_url` that are not the
default are fixed points of `ensureCore` — re-normalizing
`scheme ++ "://" ++ netloc ++ path` with a well-formed lower-case scheme,
a delimiter-free non-empty netloc and a slash-headed path ending in
`/meter` changes nothing. -/
theorem ensureCore_fixed (sch n pth : Str)
    (h1 : sch ≠ []) (h2 : isAlphaCh (sch.headD 0) = true)
    (h3 : sch.all isSchemeChar = true) (h4 : sch.map lowerCh = sch)
    (h5 : n ≠ []) (h6 : n.all notDelim = true)
    (h7 : ∃ q, pth = q ++ strOf "/meter") (h8 : pth.headD 0 = 47)
    (h9 : pth.all notHashCh = true) (h10 : pth.all notQmCh = true) :
    ensureCore (sch ++ strOf "://" ++ n ++ pth) = sch ++ strOf "://" ++ n ++ pth := by
  have hne : pth ≠ [] := meter_ne_nil pth h7
  have hparse := urlparse_concat sch n pth h1 h2 h3 h4 h6 h8 hne h9 h10
  have hblank : isBlank (sch ++ strOf "://" ++ n ++ pth) = false := by
    rcases sch with _ | ⟨c, sch'⟩
    · exact absurd rfl h1
    · have hc : isAlphaCh c = true := by simpa using h2
      simp [isBlank, alpha_not_ws c hc]
  have hr : rstripSlash (sch ++ strOf "://" ++ n ++ pth) = sch ++ strOf "://" ++ n ++ pth := by
    obtain ⟨q, hq⟩ := h7
    rw [hq, show strOf "/meter" = [47, 109, 101, 116, 101] ++ [114] from rfl]
    simp only [← List.append_assoc]
    exact rstripSlash_last _ 114 (by decide)
  unfold ensureCore
  rw [hblank, hr, hparse]
  rw [if_neg (show ¬ (false = true) by simp)]
  rw [show (ParsedUrl.mk sch n pth).netloc = n from rfl,
    show (ParsedUrl.mk sch n pth).path = pth from rfl]
  rw [if_neg h5]
  rw [rstripSlash_meter pth h7]
  rw [show finalPath pth = pth from by unfold finalPath; rw [endsWithVersion_meter pth h7]; simp]
  rw [if_pos (meter_isSuffixOf pth h7)]
  rw [show schemeOr (ParsedUrl.mk sch n pth) = sch from by unfold schemeOr; simp [h1]]

/-- Helper: the default head of a non-empty list is a member. -/
theorem headD_mem (l : Str) (h : l ≠ []) : l.headD 0 ∈ l := by
  rcases l with _ | ⟨c, l'⟩
  · exact absurd rfl h
  · simp

/-- Helper: a non-empty parsed path starts with a slash — it is cut out of
the remainder after the netloc, which starts with one of `/`, `?`, `#`,
and the query and fragment cuts exclude the last two. -/
theorem path_head_slash (url : Str)
    (hnl : (splitNetloc (splitScheme url).2).1 ≠ [])
    (hne : stripQuery (stripFragment (splitNetloc (splitScheme url).2).2) ≠ []) :
    (stripQuery (stripFragment (splitNetloc (splitScheme url).2).2)).headD 0 = 47 := by
  obtain ⟨-, hrest⟩ := splitNetloc_shape (splitScheme url).2
  rcases hrest hnl with h0 | h0
  · exfalso
    apply hne
    rw [h0]
    rfl
  · have hin : stripFragment (splitNetloc (splitScheme url).2).2 ≠ [] := by
      intro hx
      apply hne
      unfold stripQuery
      rw [hx]
      rfl
    have e1 : (stripQuery (stripFragment (splitNetloc (splitScheme url).2).2)).headD 0
        = (stripFragment (splitNetloc (splitScheme url).2).2).headD 0 :=
      takeWhile_headD _ hne
    have e2 : (stripFragment (splitNetloc (splitScheme url).2).2).headD 0
        = ((splitNetloc (splitScheme url).2).2).headD 0 :=
      takeWhile_headD _ hin
    have hq : notQmCh ((stripQuery (stripFragment (splitNetloc (splitScheme url).2).2)).headD 0)
        = true := by
      have hmem := headD_mem _ hne
      exact List.all_eq_true.1 (List.all_takeWhile) _ hmem
    have hh : notHashCh ((stripFragment (splitNetloc (splitScheme url).2).2).headD 0)
        = true := by
      have hmem := headD_mem _ hin
      exact List.all_eq_true.1 (List.all_takeWhile) _ hmem
    rw [e1, e2]
    rw [e1, e2] at hq
    rw [e2] at hh
    simp only [notDelim, notQmCh, notHashCh, decide_eq_true_eq,
      decide_eq_false_iff_not, not_or] at h0 hq hh
    omega

/-- Helper: every output of `ensureCore` is the default URL or of the
canonical re-parsable form `scheme ++ "://" ++ netloc ++ path` with the
path ending in `/meter`. -/
theorem ensureCore_shape (s : Str) :
    ensureCore s = defaultMeterUrl
    ∨ ∃ sch n pth, ensureCore s = sch ++ strOf "://" ++ n ++ pth
        ∧ sch ≠ [] ∧ isAlphaCh (sch.headD 0) = true
        ∧ sch.all isSchemeChar = true ∧ sch.map lowerCh = sch
        ∧ n ≠ [] ∧ n.all notDelim = true
        ∧ (∃ q, pth = q ++ strOf "/meter") ∧ pth.headD 0 = 47
        ∧ pth.all notHashCh = true ∧ pth.all notQmCh = true := by
  have hschm := splitScheme_shape (rstripSlash s)
  have hnetl := (splitNetloc_shape (splitScheme (rstripSlash s)).2).1
  have hsch : ∀ hyp : (urlparse (rstripSlash s)).netloc ≠ [],
      schemeOr (urlparse (rstripSlash s)) ≠ []
      ∧ isAlphaCh ((schemeOr (urlparse (rstripSlash s))).headD 0) = true
      ∧ (schemeOr (urlparse (rstripSlash s))).all isSchemeChar = true
      ∧ (schemeOr (urlparse (rstripSlash s))).map lowerCh
          = schemeOr (urlparse (rstripSlash s)) := by
    intro _
    unfold schemeOr
    rcases hschm with h | ⟨ha, hb, hc, hd⟩
    · rw [if_pos (show (urlparse (rstripSlash s)).scheme = [] from h)]
      exact ⟨by decide, by decide, by decide, by decide⟩
    · rw [if_neg (show ¬ (urlparse (rstripSlash s)).scheme = [] from ha)]
      exact ⟨ha, hb, hc, hd⟩
  unfold ensureCore
  split_ifs with hb hnl hsuf
  · exact Or.inl rfl
  · exact Or.inl rfl
  · right
    obtain ⟨q0, hq0⟩ := (List.isSuffixOf_iff_suffix).1 hsuf
    have h7 : ∃ q, finalPath (rstripSlash (urlparse (rstripSlash s)).path)
        = q ++ strOf "/meter" := ⟨q0, hq0.symm⟩
    have hpne : finalPath (rstripSlash (urlparse (rstripSlash s)).path) ≠ [] :=
      meter_ne_nil _ h7
    obtain ⟨t1, ht1⟩ := rstripSlash_init (urlparse (rstripSlash s)).path
    obtain ⟨t2, ht2⟩ : ∃ t2, rstripSlash (urlparse (rstripSlash s)).path
        = finalPath (rstripSlash (urlparse (rstripSlash s)).path) ++ t2 := by
      unfold finalPath
      split_ifs
      · exact rsplitSlashHead_init _
      · exact ⟨[], by simp⟩
    have hinit : (urlparse (rstripSlash s)).path
        = finalPath (rstripSlash (urlparse (rstripSlash s)).path) ++ (t2 ++ t1) := by
      conv_lhs => rw [ht1, ht2]
      rw [List.append_assoc]
    have hpath0ne : (urlparse (rstripSlash s)).path ≠ [] := by
      rw [hinit]
      intro hx
      rw [List.append_eq_nil] at hx
      exact hpne hx.1
    have hallq : (urlparse (rstripSlash s)).path.all notQmCh = true := List.all_takeWhile
    have hallh : (urlparse (rstripSlash s)).path.all notHashCh = true := by
      have hx : (stripFragment (splitNetloc (splitScheme (rstripSlash s)).2).2).all notHashCh
          = true := List.all_takeWhile
      exact all_of_init _ _ _
        (List.takeWhile_append_dropWhile (p := notQmCh)
          (l := stripFragment (splitNetloc (splitScheme (rstripSlash s)).2).2)).symm hx
    have hhead : (urlparse (rstripSlash s)).path.headD 0 = 47 :=
      path_head_slash (rstripSlash s) (fun hx => hnl hx) hpath0ne
    refine ⟨schemeOr (urlparse (rstripSlash s)), (urlparse (rstripSlash s)).netloc,
      finalPath (rstripSlash (urlparse (rstripSlash s)).path), rfl, ?_⟩
    obtain ⟨ha, hb', hc, hd⟩ := hsch hnl
    refine ⟨ha, hb', hc, hd, hnl, hnetl, h7, ?_, ?_, ?_⟩
    · rw [headD_of_init _ _ _ hinit hpne]
      exact hhead
    · exact all_of_init _ _ _ hinit hallh
    · exact all_of_init _ _ _ hinit hallq
  · right
    refine ⟨schemeOr (urlparse (rstripSlash s)), (urlparse (rstripSlash s)).netloc,
      strOf "/meter", rfl, ?_⟩
    obtain ⟨ha, hb', hc, hd⟩ := hsch hnl
    exact ⟨ha, hb', hc, hd, hnl, hnetl, ⟨[], rfl⟩, by decide, by decide, by decide⟩

/-- Helper: `ensureCore` is idempotent — its outputs are its fixed
points. -/
theorem ensureCore_idem (s : Str) : ensureCore (ensureCore s) = ensureCore s := by
  rcases ensureCore_shape s with h | ⟨sch, n, pth, heq, h1, h2, h3, h4, h5, h6, h7, h8, h9, h10⟩
  · rw [h]
    decide
  · rw [heq]
    exact ensureCore_fixed sch n pth h1 h2 h3 h4 h5 h6 h7 h8 h9 h10

/-- Claim C9: URL normalization appends `/meter` to a bare base URL,
strips version suffixes back down to `/meter`, falls back to the
documented default URL on `None` (with no environment setting present),
and is idempotent. -/
theorem ensure_meter_in_url_spec :
    ensure_meter_in_url (some (strOf "https://h")) Option.none = strOf "https://h/meter"
    ∧ ensure_meter_in_url (some (strOf "https://h/meter/v2")) Option.none
      = strOf "https://h/meter"
    ∧ ensure_meter_in_url Option.none Option.none = strOf "https://api.revenium.ai/meter"
    ∧ (∀ (u env env' : Option Str),
        ensure_meter_in_url (some (ensure_meter_in_url u env)) env'
          = ensure_meter_in_url u env) := by
  refine ⟨by decide, by decide, by decide, ?_⟩
  intro u env env'
  show ensureCore (ensure_meter_in_url u env) = ensure_meter_in_url u env
  rcases u with _ | s
  · rcases env with _ | e
    · show ensureCore defaultMeterUrl = defaultMeterUrl
      decide
    · show ensureCore (ensureCore e) = ensureCore e
      exact ensureCore_idem e
  · show ensureCore (ensureCore s) = ensureCore s
    exact ensureCore_idem s

/-- Witness for C6 at an unrecognized code and at `None`. -/
theorem normalize_stop_reason_total_witness :
    normalize_stop_reason (some "BANANA") .GOOGLE_AI_SDK = "END"
    ∧ normalize_stop_reason Option.none .VERTEX_AI_SDK = "END"
    ∧ normalize_stop_reason (some "MAX_TOKENS") .GOOGLE_AI_SDK ∈ validStopReasons :=
  ⟨(normalize_stop_reason_total (some "BANANA") .GOOGLE_AI_SDK).2.2 "BANANA" rfl (by decide),
   (normalize_stop_reason_total Option.none .VERTEX_AI_SDK).2.1 rfl,
   (normalize_stop_reason_total (some "MAX_TOKENS") .GOOGLE_AI_SDK).1⟩

end Revenium
